import Mathlib

/-!
# Shared / weak ownership: control blocks, `SharedPtr`, `WeakPtr`

A shallow embedding of `sw_fwd.h`, `shared.h` and `weak.h`, followed by `IntrusivePtr`
(`intrusive.h`) and the primary template of `UniquePtr` (`unique.h`).

* Memory is a `Heap`: control blocks and managed objects, both indexed by address.
* A raw pointer is an `Option Addr`; `none` is `nullptr`.
* Every member function that touches a control block is a function `Heap → … → Heap`.
* `delete this` and the destructor of the managed object do not erase anything from the
  model: they are counted (`Block.deleted`, `Obj.destroyed`), so that "exactly once" is the
  statement that a count is `1`, and a pointer whose block has `deleted ≠ 0` is dangling.
* The `size_t` counters are natural numbers with the arithmetic of a 64-bit `size_t`:
  `++` wraps from `2^64 - 1` to `0` and `--` wraps from `0` to `2^64 - 1`, as in the source.
* The managed type `T` is abstract.  The only member the library itself puts into a managed
  object is `EnableSharedFromThis<T>::weak_this_`, so the destructor of a managed object is
  modelled as running `~WeakPtr()` on that member (which stays empty for a type that does not
  derive from `EnableSharedFromThis`).
* For `IntrusivePtr` the counter lives in the object (`RefObj`), and `Deleter::Destroy` is
  counted in the same way.  For `UniquePtr` the calls to deleters are recorded in a log.
-/

namespace SmartPtrs

/-- An address.  Raw pointers are `Option Addr`, with `none` for `nullptr`. -/
abbrev Addr := Nat

/-- The largest `size_t` value. -/
def SIZE_MAX : Nat := 2 ^ 64 - 1

/-- Pre-decrement `--c` of a `size_t` counter: wraps at zero. -/
def decr (c : Nat) : Nat := if c = 0 then SIZE_MAX else c - 1

/-- Pre-increment `++c` of a `size_t` counter: wraps from `2^64 - 1` to zero. -/
def incr (c : Nat) : Nat := if c = SIZE_MAX then 0 else c + 1

/-- The exception type `BadWeakPtr` (`sw_fwd.h`). -/
inductive BadWeakPtr where
  | mk : BadWeakPtr
deriving DecidableEq

/-- The fields of `WeakPtr<T>` (`weak.h`): `BaseBlock* block_; T* observer_;`. -/
structure WeakPtr where
  block_ : Option Addr
  observer_ : Option Addr
deriving DecidableEq

/-- The fields of `SharedPtr<T>` (`shared.h`): `BaseBlock* block_; T* observer_;`. -/
structure SharedPtr where
  block_ : Option Addr
  observer_ : Option Addr
deriving DecidableEq

/-- The dynamic type behind a `BaseBlock*`. -/
inductive BlockKind where
  | pointer : BlockKind
  | object : BlockKind
deriving DecidableEq

/-- A control block in memory.  `object_` is `T* object_` for a `BlockPointer<T>` and the
address of the in-place storage (what `GetObserver()` returns) for a `BlockObject<T>`.
`deleted` counts the executions of `delete this`. -/
structure Block where
  kind : BlockKind
  strong_counter_ : Nat
  weak_counter_ : Nat
  object_ : Option Addr
  deleted : Nat
deriving DecidableEq

/-- A managed object in memory: its `weak_this_` member (the default-constructed, empty
`WeakPtr` unless a `SharedPtr` installed a self-reference) and the number of times its
destructor has run. -/
structure Obj where
  weak_this_ : WeakPtr
  destroyed : Nat
deriving DecidableEq

/-- The heap: control blocks and managed objects by address, with the next free address
of each allocator. -/
structure Heap where
  blocks : Addr → Block
  objs : Addr → Obj
  nextBlock : Addr
  nextObj : Addr

/-- The heap before anything has been allocated. -/
def Heap.empty : Heap where
  blocks := fun _ => ⟨BlockKind.pointer, 0, 0, none, 0⟩
  objs := fun _ => ⟨⟨none, none⟩, 0⟩
  nextBlock := 0
  nextObj := 0

/-- Overwrite the control block stored at address `a`. -/
def Heap.setBlock (h : Heap) (a : Addr) (b : Block) : Heap :=
  { h with blocks := fun x => if x = a then b else h.blocks x }

/-- Overwrite the object stored at address `a`. -/
def Heap.setObj (h : Heap) (a : Addr) (o : Obj) : Heap :=
  { h with objs := fun x => if x = a then o else h.objs x }

/-- The statement `delete this;` inside a control block: the block is deallocated. -/
def Heap.deleteThis (h : Heap) (this : Addr) : Heap :=
  h.setBlock this { h.blocks this with deleted := (h.blocks this).deleted + 1 }

/-- The expression `new T(...)` of user code: a fresh object whose `weak_this_` is the
default-constructed (empty) `WeakPtr`. -/
def Heap.newObject (h : Heap) : Heap × Addr :=
  ({ h.setObj h.nextObj ⟨⟨none, none⟩, 0⟩ with nextObj := h.nextObj + 1 }, h.nextObj)

/-! ## `BlockPointer<T>` (`sw_fwd.h`, lines 29-68) and `BlockObject<T>` (lines 70-114):
the members that do not run a destructor -/

/-- Embeds `BlockPointer::IncStrongCounter`: `++strong_counter_;`. -/
def BlockPointer.IncStrongCounter (h : Heap) (this : Addr) : Heap :=
  h.setBlock this { h.blocks this with strong_counter_ := incr (h.blocks this).strong_counter_ }

/-- Embeds `BlockPointer::IncWeakCounter`: `++weak_counter_;`. -/
def BlockPointer.IncWeakCounter (h : Heap) (this : Addr) : Heap :=
  h.setBlock this { h.blocks this with weak_counter_ := incr (h.blocks this).weak_counter_ }

/-- Embeds `BlockPointer::DecWeakCounter`:
`--weak_counter_; if (weak_counter_ == 0 && strong_counter_ == 0) delete this;`. -/
def BlockPointer.DecWeakCounter (h : Heap) (this : Addr) : Heap :=
  let h1 := h.setBlock this
    { h.blocks this with weak_counter_ := decr (h.blocks this).weak_counter_ }
  if (h1.blocks this).weak_counter_ = 0 ∧ (h1.blocks this).strong_counter_ = 0 then
    h1.deleteThis this
  else h1

/-- Embeds `BlockPointer::GetStrongCounter`. -/
def BlockPointer.GetStrongCounter (h : Heap) (this : Addr) : Nat :=
  (h.blocks this).strong_counter_

/-- Embeds `BlockPointer::GetWeakCounter`. -/
def BlockPointer.GetWeakCounter (h : Heap) (this : Addr) : Nat :=
  (h.blocks this).weak_counter_

/-- Embeds `BlockObject::IncStrongCounter`: `++strong_counter_;`. -/
def BlockObject.IncStrongCounter (h : Heap) (this : Addr) : Heap :=
  h.setBlock this { h.blocks this with strong_counter_ := incr (h.blocks this).strong_counter_ }

/-- Embeds `BlockObject::IncWeakCounter`: `++weak_counter_;`. -/
def BlockObject.IncWeakCounter (h : Heap) (this : Addr) : Heap :=
  h.setBlock this { h.blocks this with weak_counter_ := incr (h.blocks this).weak_counter_ }

/-- Embeds `BlockObject::DecWeakCounter`:
`--weak_counter_; if (weak_counter_ == 0 && strong_counter_ == 0) delete this;`. -/
def BlockObject.DecWeakCounter (h : Heap) (this : Addr) : Heap :=
  let h1 := h.setBlock this
    { h.blocks this with weak_counter_ := decr (h.blocks this).weak_counter_ }
  if (h1.blocks this).weak_counter_ = 0 ∧ (h1.blocks this).strong_counter_ = 0 then
    h1.deleteThis this
  else h1

/-- Embeds `BlockObject::GetStrongCounter`. -/
def BlockObject.GetStrongCounter (h : Heap) (this : Addr) : Nat :=
  (h.blocks this).strong_counter_

/-- Embeds `BlockObject::GetWeakCounter`. -/
def BlockObject.GetWeakCounter (h : Heap) (this : Addr) : Nat :=
  (h.blocks this).weak_counter_

/-- Embeds `BlockObject::GetObserver`: the address of the in-place storage. -/
def BlockObject.GetObserver (h : Heap) (this : Addr) : Option Addr :=
  (h.blocks this).object_

/-! ## Virtual dispatch through `BaseBlock` (`sw_fwd.h`, lines 17-27) -/

/-- Virtual call `block->IncStrongCounter()`. -/
def BaseBlock.IncStrongCounter (h : Heap) (this : Addr) : Heap :=
  match (h.blocks this).kind with
  | BlockKind.pointer => BlockPointer.IncStrongCounter h this
  | BlockKind.object => BlockObject.IncStrongCounter h this

/-- Virtual call `block->IncWeakCounter()`. -/
def BaseBlock.IncWeakCounter (h : Heap) (this : Addr) : Heap :=
  match (h.blocks this).kind with
  | BlockKind.pointer => BlockPointer.IncWeakCounter h this
  | BlockKind.object => BlockObject.IncWeakCounter h this

/-- Virtual call `block->DecWeakCounter()`. -/
def BaseBlock.DecWeakCounter (h : Heap) (this : Addr) : Heap :=
  match (h.blocks this).kind with
  | BlockKind.pointer => BlockPointer.DecWeakCounter h this
  | BlockKind.object => BlockObject.DecWeakCounter h this

/-- Virtual call `block->GetStrongCounter()`. -/
def BaseBlock.GetStrongCounter (h : Heap) (this : Addr) : Nat :=
  match (h.blocks this).kind with
  | BlockKind.pointer => BlockPointer.GetStrongCounter h this
  | BlockKind.object => BlockObject.GetStrongCounter h this

/-- Virtual call `block->GetWeakCounter()`. -/
def BaseBlock.GetWeakCounter (h : Heap) (this : Addr) : Nat :=
  match (h.blocks this).kind with
  | BlockKind.pointer => BlockPointer.GetWeakCounter h this
  | BlockKind.object => BlockObject.GetWeakCounter h this

/-! ## Destruction of the managed object -/

/-- Embeds `WeakPtr::~WeakPtr` (`weak.h`, lines 73-77):
`if (block_ != nullptr) block_->DecWeakCounter();`. -/
def WeakPtr.dtor (h : Heap) (this : WeakPtr) : Heap :=
  match this.block_ with
  | some b => BaseBlock.DecWeakCounter h b
  | none => h

/-- The destructor `~T()` of the managed object at address `o`: the run is counted and the
member `weak_this_` is destroyed. -/
def Obj.dtor (h : Heap) (o : Addr) : Heap :=
  let h1 := h.setObj o { h.objs o with destroyed := (h.objs o).destroyed + 1 }
  WeakPtr.dtor h1 (h1.objs o).weak_this_

/-- The statement `delete object_;` of `BlockPointer`: nothing for a null pointer, else the
destructor of the object. -/
def deleteObject (h : Heap) (p : Option Addr) : Heap :=
  match p with
  | some o => Obj.dtor h o
  | none => h

/-- Embeds `BlockPointer::DecStrongCounter` (`sw_fwd.h`, lines 40-50). -/
def BlockPointer.DecStrongCounter (h : Heap) (this : Addr) : Heap :=
  let h1 := h.setBlock this
    { h.blocks this with strong_counter_ := decr (h.blocks this).strong_counter_ }
  if (h1.blocks this).strong_counter_ = 0 then
    let h2 := h1.setBlock this
      { h1.blocks this with weak_counter_ := incr (h1.blocks this).weak_counter_ }
    let h3 := deleteObject h2 (h2.blocks this).object_
    let h4 := h3.setBlock this
      { h3.blocks this with weak_counter_ := decr (h3.blocks this).weak_counter_ }
    if (h4.blocks this).weak_counter_ = 0 then h4.deleteThis this else h4
  else h1

/-- Embeds `BlockObject::DecStrongCounter` (`sw_fwd.h`, lines 83-93); the destruction action is
`GetObserver()->~T();`. -/
def BlockObject.DecStrongCounter (h : Heap) (this : Addr) : Heap :=
  let h1 := h.setBlock this
    { h.blocks this with strong_counter_ := decr (h.blocks this).strong_counter_ }
  if (h1.blocks this).strong_counter_ = 0 then
    let h2 := h1.setBlock this
      { h1.blocks this with weak_counter_ := incr (h1.blocks this).weak_counter_ }
    let h3 := match BlockObject.GetObserver h2 this with
      | some o => Obj.dtor h2 o
      | none => h2
    let h4 := h3.setBlock this
      { h3.blocks this with weak_counter_ := decr (h3.blocks this).weak_counter_ }
    if (h4.blocks this).weak_counter_ = 0 then h4.deleteThis this else h4
  else h1

/-- Virtual call `block->DecStrongCounter()`. -/
def BaseBlock.DecStrongCounter (h : Heap) (this : Addr) : Heap :=
  match (h.blocks this).kind with
  | BlockKind.pointer => BlockPointer.DecStrongCounter h this
  | BlockKind.object => BlockObject.DecStrongCounter h this

/-- The constructor `BlockPointer(T* obj)` behind `new BlockPointer<Y>(ptr)`:
`strong_counter_(1), weak_counter_(0), object_(obj)`, at a fresh address. -/
def BlockPointer.new (h : Heap) (obj : Option Addr) : Heap × Addr :=
  ({ h.setBlock h.nextBlock ⟨BlockKind.pointer, 1, 0, obj, 0⟩ with
      nextBlock := h.nextBlock + 1 }, h.nextBlock)

/-- The constructor `BlockObject(Args&&...)` behind `new BlockObject<T>(args...)`:
`strong_counter_(1), weak_counter_(0)` and the object constructed in the block's own
storage. -/
def BlockObject.new (h : Heap) : Heap × Addr :=
  let r := h.newObject
  ({ r.1.setBlock r.1.nextBlock ⟨BlockKind.object, 1, 0, some r.2, 0⟩ with
      nextBlock := r.1.nextBlock + 1 }, r.1.nextBlock)

/-! ## `WeakPtr<T>` (`weak.h`) -/

/-- Embeds `WeakPtr::WeakPtr()`: `block_(nullptr), observer_(nullptr)`. -/
def WeakPtr.ctor_default : WeakPtr := ⟨none, none⟩

/-- Embeds `WeakPtr::WeakPtr(const WeakPtr&)` and its converting form (`weak.h`, lines 20-30). -/
def WeakPtr.ctor_copy (h : Heap) (other : WeakPtr) : Heap × WeakPtr :=
  let this : WeakPtr := ⟨other.block_, other.observer_⟩
  match this.block_ with
  | some b => (BaseBlock.IncWeakCounter h b, this)
  | none => (h, this)

/-- Embeds `WeakPtr::WeakPtr(WeakPtr&&)` (`weak.h`, lines 31-34): the new pointer and the
moved-from source. -/
def WeakPtr.ctor_move (other : WeakPtr) : WeakPtr × WeakPtr :=
  (⟨other.block_, other.observer_⟩, ⟨none, none⟩)

/-- Embeds `WeakPtr::WeakPtr(const SharedPtr<Y>&)` (`weak.h`, lines 38-43): demotion. -/
def WeakPtr.ctor_shared (h : Heap) (other : SharedPtr) : Heap × WeakPtr :=
  let this : WeakPtr := ⟨other.block_, other.observer_⟩
  match this.block_ with
  | some b => (BaseBlock.IncWeakCounter h b, this)
  | none => (h, this)

/-- Embeds `WeakPtr::operator=(const WeakPtr&)` (`weak.h`, lines 48-58); `other` is read after the
decrement, so the same function serves when `other` is `*this`. -/
def WeakPtr.assign_copy (h : Heap) (this other : WeakPtr) : Heap × WeakPtr :=
  let h1 := match this.block_ with
    | some b => BaseBlock.DecWeakCounter h b
    | none => h
  let this1 : WeakPtr := ⟨other.block_, other.observer_⟩
  match this1.block_ with
  | some b => (BaseBlock.IncWeakCounter h1 b, this1)
  | none => (h1, this1)

/-- Embeds `WeakPtr::operator=(WeakPtr&&)` (`weak.h`, lines 59-68): the heap, the target and the
moved-from source. -/
def WeakPtr.assign_move (h : Heap) (this other : WeakPtr) : Heap × WeakPtr × WeakPtr :=
  let h1 := match this.block_ with
    | some b => BaseBlock.DecWeakCounter h b
    | none => h
  (h1, ⟨other.block_, other.observer_⟩, ⟨none, none⟩)

/-- Embeds `WeakPtr::Reset` (`weak.h`, lines 82-88). -/
def WeakPtr.Reset (h : Heap) (this : WeakPtr) : Heap × WeakPtr :=
  match this.block_ with
  | some b => (BaseBlock.DecWeakCounter h b, ⟨none, none⟩)
  | none => (h, this)

/-- Embeds `WeakPtr::Swap` (`weak.h`, lines 89-92). -/
def WeakPtr.Swap (this other : WeakPtr) : WeakPtr × WeakPtr :=
  (⟨other.block_, other.observer_⟩, ⟨this.block_, this.observer_⟩)

/-- Embeds `WeakPtr::UseCount` (`weak.h`, lines 97-102). -/
def WeakPtr.UseCount (h : Heap) (this : WeakPtr) : Nat :=
  match this.block_ with
  | some b => BaseBlock.GetStrongCounter h b
  | none => 0

/-- Embeds `WeakPtr::Expired` (`weak.h`, lines 103-105):
`block_ == nullptr || block_->GetStrongCounter() == 0`. -/
def WeakPtr.Expired (h : Heap) (this : WeakPtr) : Bool :=
  match this.block_ with
  | none => true
  | some b => BaseBlock.GetStrongCounter h b == 0

/-! ## `SharedPtr<T>` (`shared.h`) -/

/-- Embeds `SharedPtr::SharedPtr()` and `SharedPtr(std::nullptr_t)`. -/
def SharedPtr.ctor_default : SharedPtr := ⟨none, none⟩

/-- Embeds `SharedPtr::InitWeakThis` (`shared.h`, lines 150-153): `e->weak_this_ = *this;`, that is
a temporary `WeakPtr(const SharedPtr&)`, move-assigned into `weak_this_`, then destroyed.
A null `e` cannot be dereferenced and is left alone. -/
def SharedPtr.InitWeakThis (h : Heap) (this : SharedPtr) (e : Option Addr) : Heap :=
  match e with
  | none => h
  | some o =>
    let t := WeakPtr.ctor_shared h this
    let r := WeakPtr.assign_move t.1 (t.1.objs o).weak_this_ t.2
    let h3 := r.1.setObj o { r.1.objs o with weak_this_ := r.2.1 }
    WeakPtr.dtor h3 r.2.2

/-- Embeds `SharedPtr::SharedPtr(Y* ptr)` (`shared.h`, lines 23-28).  `esft` is the value of
`std::is_convertible_v<T*, EnableSharedFromThisBase*>`. -/
def SharedPtr.ctor_raw (esft : Bool) (h : Heap) (ptr : Option Addr) : Heap × SharedPtr :=
  let r := BlockPointer.new h ptr
  let this : SharedPtr := ⟨some r.2, ptr⟩
  if esft then (SharedPtr.InitWeakThis r.1 this ptr, this) else (r.1, this)

/-- Embeds `SharedPtr::SharedPtr(const SharedPtr&)` and its converting form
(`shared.h`, lines 30-41). -/
def SharedPtr.ctor_copy (h : Heap) (other : SharedPtr) : Heap × SharedPtr :=
  let this : SharedPtr := ⟨other.block_, other.observer_⟩
  match this.block_ with
  | some b => (BaseBlock.IncStrongCounter h b, this)
  | none => (h, this)

/-- Embeds `SharedPtr::SharedPtr(SharedPtr<Y>&&)` (`shared.h`, lines 42-46): the new pointer and
the moved-from source. -/
def SharedPtr.ctor_move (other : SharedPtr) : SharedPtr × SharedPtr :=
  (⟨other.block_, other.observer_⟩, ⟨none, none⟩)

/-- Embeds `SharedPtr::SharedPtr(BlockObject<T>* ptr)` (`shared.h`, lines 47-51).  `esft` is the
value of `std::is_base_of_v<EnableSharedFromThisBase, T>`. -/
def SharedPtr.ctor_block (esft : Bool) (h : Heap) (ptr : Addr) : Heap × SharedPtr :=
  let this : SharedPtr := ⟨some ptr, BlockObject.GetObserver h ptr⟩
  if esft then (SharedPtr.InitWeakThis h this (BlockObject.GetObserver h ptr), this)
  else (h, this)

/-- The aliasing constructor `SharedPtr(const SharedPtr<Y>& other, T* ptr)`
(`shared.h`, lines 54-59). -/
def SharedPtr.ctor_alias (h : Heap) (other : SharedPtr) (ptr : Option Addr) :
    Heap × SharedPtr :=
  let this : SharedPtr := ⟨other.block_, ptr⟩
  match this.block_ with
  | some b => (BaseBlock.IncStrongCounter h b, this)
  | none => (h, this)

/-- Promotion `SharedPtr(const WeakPtr<T>& other)` (`shared.h`, lines 63-72).  The result
is the heap after the call and either the thrown `BadWeakPtr` or the constructed pointer. -/
def SharedPtr.ctor_weak (h : Heap) (other : WeakPtr) : Heap × Except BadWeakPtr SharedPtr :=
  if WeakPtr.Expired h other then (h, Except.error BadWeakPtr.mk)
  else
    let this : SharedPtr := ⟨other.block_, other.observer_⟩
    match this.block_ with
    | some b => (BaseBlock.IncStrongCounter h b, Except.ok this)
    | none => (h, Except.ok this)

/-- Embeds `SharedPtr::operator=(const SharedPtr&)` (`shared.h`, lines 77-87); `other` is read
after the decrement, so the same function serves when `other` is `*this`. -/
def SharedPtr.assign_copy (h : Heap) (this other : SharedPtr) : Heap × SharedPtr :=
  let h1 := match this.block_ with
    | some b => BaseBlock.DecStrongCounter h b
    | none => h
  let this1 : SharedPtr := ⟨other.block_, other.observer_⟩
  match this1.block_ with
  | some b => (BaseBlock.IncStrongCounter h1 b, this1)
  | none => (h1, this1)

/-- Embeds `SharedPtr::operator=(SharedPtr&&)` (`shared.h`, lines 88-97): the heap, the target and
the moved-from source. -/
def SharedPtr.assign_move (h : Heap) (this other : SharedPtr) :
    Heap × SharedPtr × SharedPtr :=
  let h1 := match this.block_ with
    | some b => BaseBlock.DecStrongCounter h b
    | none => h
  (h1, ⟨other.block_, other.observer_⟩, ⟨none, none⟩)

/-- Embeds `SharedPtr::~SharedPtr` (`shared.h`, lines 102-106). -/
def SharedPtr.dtor (h : Heap) (this : SharedPtr) : Heap :=
  match this.block_ with
  | some b => BaseBlock.DecStrongCounter h b
  | none => h

/-- Embeds `SharedPtr::Reset()` (`shared.h`, lines 111-117). -/
def SharedPtr.Reset (h : Heap) (this : SharedPtr) : Heap × SharedPtr :=
  match this.block_ with
  | some b => (BaseBlock.DecStrongCounter h b, ⟨none, none⟩)
  | none => (h, this)

/-- Embeds `SharedPtr::Reset(Y* ptr)` (`shared.h`, lines 118-123):
`Reset(); block_ = new BlockPointer<Y>(ptr); observer_ = ptr;`. -/
def SharedPtr.Reset_ptr (h : Heap) (this : SharedPtr) (ptr : Option Addr) :
    Heap × SharedPtr :=
  let r := SharedPtr.Reset h this
  let n := BlockPointer.new r.1 ptr
  (n.1, ⟨some n.2, ptr⟩)

/-- Embeds `SharedPtr::Swap` (`shared.h`, lines 124-127). -/
def SharedPtr.Swap (this other : SharedPtr) : SharedPtr × SharedPtr :=
  (⟨other.block_, other.observer_⟩, ⟨this.block_, this.observer_⟩)

/-- Embeds `SharedPtr::Get` (`shared.h`, lines 132-134). -/
def SharedPtr.Get (this : SharedPtr) : Option Addr := this.observer_

/-- Embeds `SharedPtr::UseCount` (`shared.h`, lines 141-146). -/
def SharedPtr.UseCount (h : Heap) (this : SharedPtr) : Nat :=
  match this.block_ with
  | some b => BaseBlock.GetStrongCounter h b
  | none => 0

/-- Embeds `SharedPtr::operator bool` (`shared.h`, lines 147-149): `block_ != nullptr`. -/
def SharedPtr.toBool (this : SharedPtr) : Bool := this.block_.isSome

/-- Embeds `operator==` on shared pointers (`shared.h`, lines 160-163). -/
def SharedPtr.eq (left right : SharedPtr) : Bool := left.Get == right.Get

/-- Embeds `MakeShared<T>(args...)` (`shared.h`, lines 166-169):
`SharedPtr<T>(new BlockObject<T>(args...))`. -/
def MakeShared (esft : Bool) (h : Heap) : Heap × SharedPtr :=
  let r := BlockObject.new h
  SharedPtr.ctor_block esft r.1 r.2

/-- Embeds `WeakPtr::Lock` (`weak.h`, lines 106-111):
`if (!Expired()) return SharedPtr<T>(*this); return SharedPtr<T>();`. -/
def WeakPtr.Lock (h : Heap) (this : WeakPtr) : Heap × Except BadWeakPtr SharedPtr :=
  if !WeakPtr.Expired h this then SharedPtr.ctor_weak h this
  else (h, Except.ok SharedPtr.ctor_default)

/-! ## `EnableSharedFromThis<T>` (`shared.h`, lines 173-197) -/

/-- Embeds `EnableSharedFromThis::SharedFromThis`, called on the object at address `this`:
`return SharedPtr<T>(weak_this_);`. -/
def EnableSharedFromThis.SharedFromThis (h : Heap) (this : Addr) :
    Heap × Except BadWeakPtr SharedPtr :=
  SharedPtr.ctor_weak h (h.objs this).weak_this_

/-- Embeds `EnableSharedFromThis::WeakFromThis`: `return WeakPtr<T>(weak_this_);`. -/
def EnableSharedFromThis.WeakFromThis (h : Heap) (this : Addr) : Heap × WeakPtr :=
  WeakPtr.ctor_copy h (h.objs this).weak_this_

/-! ## Vocabulary of the statements -/

/-- The number of weak counts of block `b` that the object at `p` holds through its own
`weak_this_`: `1` if that member refers to `b`, else `0`. -/
def Heap.selfRefsOf (h : Heap) (p : Option Addr) (b : Addr) : Nat :=
  match p with
  | none => 0
  | some o => if (h.objs o).weak_this_.block_ = some b then 1 else 0

/-- The number of weak counts of block `b` held by the installed self-reference of the
object that `b` manages. -/
def Heap.selfRefs (h : Heap) (b : Addr) : Nat := h.selfRefsOf (h.blocks b).object_ b

/-- The destructors of the shared pointers of `l`, run one after the other. -/
def SharedPtr.dtorAll (h : Heap) (l : List SharedPtr) : Heap := l.foldl SharedPtr.dtor h

/-- The destructors of the weak pointers of `l`, run one after the other. -/
def WeakPtr.dtorAll (h : Heap) (l : List WeakPtr) : Heap := l.foldl WeakPtr.dtor h

/-- The state invariant of the data model: a pointer without a control block has no
observer either. -/
def SharedPtr.NullBlockNullObserver (p : SharedPtr) : Prop :=
  p.block_ = none → p.observer_ = none

/-- The heap at the program point of `DecStrongCounter` just before the object is
destroyed, on the branch `strong_counter_ == 0`: after `--strong_counter_;` and
`++weak_counter_;` (`sw_fwd.h`, lines 41-43 and 84-86). -/
def DecStrongCounter.beforeDestroy (h : Heap) (this : Addr) : Heap :=
  let h1 := h.setBlock this
    { h.blocks this with strong_counter_ := decr (h.blocks this).strong_counter_ }
  h1.setBlock this { h1.blocks this with weak_counter_ := incr (h1.blocks this).weak_counter_ }

/-- The rest of `DecStrongCounter` once the object has been destroyed, `h3` being the
heap the destructor left: `--weak_counter_; if (weak_counter_ == 0) delete this;`
(`sw_fwd.h`, lines 45-48 and 88-91). -/
def DecStrongCounter.afterDestroy (h3 : Heap) (this : Addr) : Heap :=
  let h4 := h3.setBlock this
    { h3.blocks this with weak_counter_ := decr (h3.blocks this).weak_counter_ }
  if (h4.blocks this).weak_counter_ = 0 then h4.deleteThis this else h4

/-! ## Concrete programs -/

/-- The program `SharedPtr<T> a(new T);` on the empty heap, for a type `T` without the self-reference
capability: the heap and `a`.  The object and the block both get address `0`. -/
def Example.soleOwner : Heap × SharedPtr :=
  SharedPtr.ctor_raw false Heap.empty.newObject.1 (some Heap.empty.newObject.2)

/-- The program `SharedPtr<T> a(new T); WeakPtr<T> w(a);`: the heap and `w`. -/
def Example.soleOwnerWithWeak : Heap × WeakPtr :=
  WeakPtr.ctor_shared Example.soleOwner.1 Example.soleOwner.2

/-- The program `SharedPtr<T> a(new T);` for a type `T` deriving from `EnableSharedFromThis<T>`. -/
def Example.soleOwnerEsft : Heap × SharedPtr :=
  SharedPtr.ctor_raw true Heap.empty.newObject.1 (some Heap.empty.newObject.2)

/-- The program `SharedPtr<T> a; a.Reset(new T);` for a type `T` deriving from
`EnableSharedFromThis<T>`. -/
def Example.resetToFresh : Heap × SharedPtr :=
  SharedPtr.Reset_ptr Heap.empty.newObject.1 SharedPtr.ctor_default
    (some Heap.empty.newObject.2)

/-- The program `SharedPtr<T> e; SharedPtr<U> q(e, m);` with `m` the address `7`: the
aliasing constructor applied to an empty source and a non-null pointer. -/
def Example.aliasOfEmpty : Heap × SharedPtr :=
  SharedPtr.ctor_alias Heap.empty SharedPtr.ctor_default (some 7)

/-- The scenario, step 1: `sp1 = MakeShared<Widget>(42)` on the heap `h`. -/
def Scenario.makeSp1 (esft : Bool) (h : Heap) : Heap × SharedPtr := MakeShared esft h

/-- The scenario, step 2: `sp2 = sp1`, a copy construction. -/
def Scenario.copySp2 (esft : Bool) (h : Heap) : Heap × SharedPtr :=
  SharedPtr.ctor_copy (Scenario.makeSp1 esft h).1 (Scenario.makeSp1 esft h).2

/-- The scenario, step 3: `wp = sp1`, a demotion to `WeakPtr`. -/
def Scenario.demoteWp (esft : Bool) (h : Heap) : Heap × WeakPtr :=
  WeakPtr.ctor_shared (Scenario.copySp2 esft h).1 (Scenario.makeSp1 esft h).2

/-- The scenario, step 4: `sp1.Reset();`. -/
def Scenario.resetSp1 (esft : Bool) (h : Heap) : Heap × SharedPtr :=
  SharedPtr.Reset (Scenario.demoteWp esft h).1 (Scenario.makeSp1 esft h).2

/-- The scenario, step 5: `sp2.Reset();`. -/
def Scenario.resetSp2 (esft : Bool) (h : Heap) : Heap × SharedPtr :=
  SharedPtr.Reset (Scenario.resetSp1 esft h).1 (Scenario.copySp2 esft h).2

/-! ## The two block variants as state machines -/

/-- The four mutating calls of the `BaseBlock` interface. -/
inductive BlockOp where
  | IncStrongCounter : BlockOp
  | DecStrongCounter : BlockOp
  | IncWeakCounter : BlockOp
  | DecWeakCounter : BlockOp
deriving DecidableEq

/-- One call on a `BlockPointer<T>` at address `this`. -/
def BlockPointer.call (op : BlockOp) (h : Heap) (this : Addr) : Heap :=
  match op with
  | BlockOp.IncStrongCounter => BlockPointer.IncStrongCounter h this
  | BlockOp.DecStrongCounter => BlockPointer.DecStrongCounter h this
  | BlockOp.IncWeakCounter => BlockPointer.IncWeakCounter h this
  | BlockOp.DecWeakCounter => BlockPointer.DecWeakCounter h this

/-- One call on a `BlockObject<T>` at address `this`. -/
def BlockObject.call (op : BlockOp) (h : Heap) (this : Addr) : Heap :=
  match op with
  | BlockOp.IncStrongCounter => BlockObject.IncStrongCounter h this
  | BlockOp.DecStrongCounter => BlockObject.DecStrongCounter h this
  | BlockOp.IncWeakCounter => BlockObject.IncWeakCounter h this
  | BlockOp.DecWeakCounter => BlockObject.DecWeakCounter h this

/-- A sequence of calls on a `BlockPointer<T>`. -/
def BlockPointer.run (ops : List BlockOp) (h : Heap) (this : Addr) : Heap :=
  ops.foldl (fun g op => BlockPointer.call op g this) h

/-- A sequence of calls on a `BlockObject<T>`. -/
def BlockObject.run (ops : List BlockOp) (h : Heap) (this : Addr) : Heap :=
  ops.foldl (fun g op => BlockObject.call op g this) h

/-- What can be observed of a control block: the two counters, how often its object has
been destroyed and how often the block has been deallocated. -/
structure CounterState where
  strong : Nat
  weak : Nat
  destroyed : Nat
  deleted : Nat
deriving DecidableEq

/-- The number of destructor runs of the object at `p`; `0` for a null pointer. -/
def Heap.destroyedOf (h : Heap) (p : Option Addr) : Nat :=
  match p with
  | some o => (h.objs o).destroyed
  | none => 0

/-- The observable state of the `BlockPointer<T>` at `this`. -/
def BlockPointer.observe (h : Heap) (this : Addr) : CounterState :=
  ⟨BlockPointer.GetStrongCounter h this, BlockPointer.GetWeakCounter h this,
    h.destroyedOf (h.blocks this).object_, (h.blocks this).deleted⟩

/-- The observable state of the `BlockObject<T>` at `this`. -/
def BlockObject.observe (h : Heap) (this : Addr) : CounterState :=
  ⟨BlockObject.GetStrongCounter h this, BlockObject.GetWeakCounter h this,
    h.destroyedOf (BlockObject.GetObserver h this), (h.blocks this).deleted⟩

/-- The weak decrement of the counter discipline (spec, section 4.1), on the observable
state: the block deallocates itself when the weak count reaches zero and the strong count
is zero. -/
def CounterState.decWeak (s : CounterState) : CounterState :=
  { s with
    weak := decr s.weak,
    deleted := if decr s.weak = 0 ∧ s.strong = 0 then s.deleted + 1 else s.deleted }

/-- The counter discipline of the spec (section 4.1) on the observable state.  In the
strong-to-zero transition the object is destroyed under a weak count raised by one;
`selfRef` says whether that destruction releases a weak reference of the object to its own
block; then the weak count is lowered again and the block deallocates itself at zero. -/
def CounterState.step (selfRef : Bool) (op : BlockOp) (s : CounterState) : CounterState :=
  match op with
  | BlockOp.IncStrongCounter => { s with strong := incr s.strong }
  | BlockOp.IncWeakCounter => { s with weak := incr s.weak }
  | BlockOp.DecWeakCounter => s.decWeak
  | BlockOp.DecStrongCounter =>
    if decr s.strong = 0 then
      let s1 : CounterState := ⟨0, incr s.weak, s.destroyed + 1, s.deleted⟩
      let s2 := if selfRef then s1.decWeak else s1
      { s2 with
        weak := decr s2.weak,
        deleted := if decr s2.weak = 0 then s2.deleted + 1 else s2.deleted }
    else { s with strong := decr s.strong }

/-- A sequence of steps of the counter discipline. -/
def CounterState.run (selfRef : Bool) (ops : List BlockOp) (s : CounterState) :
    CounterState :=
  ops.foldl (fun t op => CounterState.step selfRef op t) s

/-! ## `IntrusivePtr<T>` and `RefCounted` (`intrusive.h`) -/

/-- An object deriving from `RefCounted<Derived, SimpleCounter, Deleter>`: the `count_` of
its `SimpleCounter` and the number of times `Deleter::Destroy` was called on it. -/
structure RefObj where
  count_ : Nat
  destroyed : Nat
deriving DecidableEq

/-- The reference-counted objects by address. -/
abbrev RefHeap := Addr → RefObj

/-- Embeds `SimpleCounter::IncRef` (`intrusive.h`, lines 8-11): the new counter, which is
also the value returned. -/
def SimpleCounter.IncRef (count_ : Nat) : Nat := incr count_

/-- Embeds `SimpleCounter::DecRef` (`intrusive.h`, lines 12-15): the new counter, which is
also the value returned. -/
def SimpleCounter.DecRef (count_ : Nat) : Nat := decr count_

/-- Embeds `SimpleCounter::RefCount` (`intrusive.h`, lines 16-18). -/
def SimpleCounter.RefCount (count_ : Nat) : Nat := count_

/-- Embeds `RefCounted::IncRef` (`intrusive.h`, lines 35-37). -/
def RefCounted.IncRef (h : RefHeap) (this : Addr) : RefHeap :=
  fun x => if x = this then { h this with count_ := SimpleCounter.IncRef (h this).count_ }
    else h x

/-- Embeds `RefCounted::DecRef` (`intrusive.h`, lines 40-45):
`size_t ref_cnt = counter_.DecRef(); if (ref_cnt == 0) Deleter::Destroy(this);`. -/
def RefCounted.DecRef (h : RefHeap) (this : Addr) : RefHeap :=
  let ref_cnt := SimpleCounter.DecRef (h this).count_
  let h1 : RefHeap := fun x => if x = this then { h this with count_ := ref_cnt } else h x
  if ref_cnt = 0 then
    fun x => if x = this then { h1 this with destroyed := (h1 this).destroyed + 1 } else h1 x
  else h1

/-- Embeds `RefCounted::RefCount` (`intrusive.h`, lines 47-49). -/
def RefCounted.RefCount (h : RefHeap) (this : Addr) : Nat :=
  SimpleCounter.RefCount (h this).count_

/-- The field of `IntrusivePtr<T>`: `T* object_;`. -/
structure IntrusivePtr where
  object_ : Option Addr
deriving DecidableEq

/-- Embeds `IntrusivePtr()` and `IntrusivePtr(std::nullptr_t)`. -/
def IntrusivePtr.ctor_default : IntrusivePtr := ⟨none⟩

/-- Embeds `IntrusivePtr(T* ptr)` (`intrusive.h`, lines 72-74): `object_->IncRef();` without
a null test; a null `ptr` cannot be dereferenced and leaves the heap alone. -/
def IntrusivePtr.ctor_raw (h : RefHeap) (ptr : Option Addr) : RefHeap × IntrusivePtr :=
  match ptr with
  | some o => (RefCounted.IncRef h o, ⟨ptr⟩)
  | none => (h, ⟨ptr⟩)

/-- Embeds `IntrusivePtr(const IntrusivePtr&)` and its converting form
(`intrusive.h`, lines 76-81 and 88-92). -/
def IntrusivePtr.ctor_copy (h : RefHeap) (other : IntrusivePtr) : RefHeap × IntrusivePtr :=
  match other.object_ with
  | some o => (RefCounted.IncRef h o, ⟨other.object_⟩)
  | none => (h, ⟨other.object_⟩)

/-- Embeds `IntrusivePtr(IntrusivePtr&&)` and its converting form
(`intrusive.h`, lines 83-86 and 93-95): the new pointer and the moved-from source. -/
def IntrusivePtr.ctor_move (other : IntrusivePtr) : IntrusivePtr × IntrusivePtr :=
  (⟨other.object_⟩, ⟨none⟩)

/-- Embeds `IntrusivePtr::operator=(const IntrusivePtr&)` (`intrusive.h`, lines 98-110). -/
def IntrusivePtr.assign_copy (h : RefHeap) (this other : IntrusivePtr) :
    RefHeap × IntrusivePtr :=
  if this.object_ = other.object_ then (h, this)
  else
    let h1 := match this.object_ with
      | some o => RefCounted.DecRef h o
      | none => h
    match other.object_ with
    | some o => (RefCounted.IncRef h1 o, ⟨other.object_⟩)
    | none => (h1, ⟨other.object_⟩)

/-- Embeds `IntrusivePtr::operator=(IntrusivePtr&&)` (`intrusive.h`, lines 111-121): the
heap, the target and the source. -/
def IntrusivePtr.assign_move (h : RefHeap) (this other : IntrusivePtr) :
    RefHeap × IntrusivePtr × IntrusivePtr :=
  if this.object_ = other.object_ then (h, this, other)
  else
    let h1 := match this.object_ with
      | some o => RefCounted.DecRef h o
      | none => h
    (h1, ⟨other.object_⟩, ⟨none⟩)

/-- Embeds `IntrusivePtr::~IntrusivePtr` (`intrusive.h`, lines 124-128). -/
def IntrusivePtr.dtor (h : RefHeap) (this : IntrusivePtr) : RefHeap :=
  match this.object_ with
  | some o => RefCounted.DecRef h o
  | none => h

/-- Embeds `IntrusivePtr::Reset(T* ptr)` (`intrusive.h`, lines 134-142): decrement the held
object, store `ptr`, increment it; there is no test for `ptr` being the held pointer. -/
def IntrusivePtr.Reset_ptr (h : RefHeap) (this : IntrusivePtr) (ptr : Option Addr) :
    RefHeap × IntrusivePtr :=
  let h1 := match this.object_ with
    | some o => RefCounted.DecRef h o
    | none => h
  match ptr with
  | some o => (RefCounted.IncRef h1 o, ⟨ptr⟩)
  | none => (h1, ⟨ptr⟩)

/-- Embeds `IntrusivePtr::Reset()` (`intrusive.h`, lines 131-133): `Reset(nullptr);`. -/
def IntrusivePtr.Reset (h : RefHeap) (this : IntrusivePtr) : RefHeap × IntrusivePtr :=
  IntrusivePtr.Reset_ptr h this none

/-- Embeds `IntrusivePtr::Swap` (`intrusive.h`, lines 143-145). -/
def IntrusivePtr.Swap (this other : IntrusivePtr) : IntrusivePtr × IntrusivePtr :=
  (⟨other.object_⟩, ⟨this.object_⟩)

/-- Embeds `IntrusivePtr::Get` (`intrusive.h`, lines 148-150). -/
def IntrusivePtr.Get (this : IntrusivePtr) : Option Addr := this.object_

/-- Embeds `IntrusivePtr::UseCount` (`intrusive.h`, lines 157-162). -/
def IntrusivePtr.UseCount (h : RefHeap) (this : IntrusivePtr) : Nat :=
  match this.object_ with
  | some o => RefCounted.RefCount h o
  | none => 0

/-- Embeds `MakeIntrusive<T>(args...)` (`intrusive.h`, lines 171-174):
`IntrusivePtr<T>(new T(args...))`, the new object being placed at address `a` with
`count_ = 0`. -/
def MakeIntrusive (h : RefHeap) (a : Addr) : RefHeap × IntrusivePtr :=
  IntrusivePtr.ctor_raw (fun x => if x = a then ⟨0, 0⟩ else h x) (some a)

/-! ## `UniquePtr<T, Deleter>` (`unique.h`, primary template) -/

/-- The member `CompressedPair<T*, Deleter> pair_` of `UniquePtr`: `first` is what
`GetFirst()` returns, `second` what `GetSecond()` returns. -/
structure UniquePtr (D : Type) where
  first : Option Addr
  second : D

/-- The calls made to deleters so far: which deleter was called on which pointer. -/
abbrev DeleterLog (D : Type) := List (D × Addr)

/-- Embeds `UniquePtr(T* ptr, Deleter deleter)` (`unique.h`, lines 48-49). -/
def UniquePtr.ctor {D : Type} (ptr : Option Addr) (deleter : D) : UniquePtr D :=
  ⟨ptr, deleter⟩

/-- Embeds the move constructor `UniquePtr(UniquePtr<D, Del>&& other)`
(`unique.h`, lines 51-55): the new pointer and the moved-from source. -/
def UniquePtr.ctor_move {D : Type} (other : UniquePtr D) : UniquePtr D × UniquePtr D :=
  (⟨other.first, other.second⟩, ⟨none, other.second⟩)

/-- Embeds `UniquePtr::operator=(UniquePtr<D, Del>&& other)` (`unique.h`, lines 61-75): the
log, the target and the source. -/
def UniquePtr.assign_move {D : Type} (log : DeleterLog D) (this other : UniquePtr D) :
    DeleterLog D × UniquePtr D × UniquePtr D :=
  let cur_ptr := this.first
  if cur_ptr = other.first then (log, this, other)
  else
    let log1 := match cur_ptr with
      | some p => log ++ [(this.second, p)]
      | none => log
    (log1, ⟨other.first, other.second⟩, ⟨none, other.second⟩)

/-- Embeds `UniquePtr::operator=(std::nullptr_t)` (`unique.h`, lines 76-83). -/
def UniquePtr.assign_null {D : Type} (log : DeleterLog D) (this : UniquePtr D) :
    DeleterLog D × UniquePtr D :=
  match this.first with
  | some p => (log ++ [(this.second, p)], ⟨none, this.second⟩)
  | none => (log, ⟨none, this.second⟩)

/-- Embeds `UniquePtr::~UniquePtr` (`unique.h`, lines 88-94). -/
def UniquePtr.dtor {D : Type} (log : DeleterLog D) (this : UniquePtr D) :
    DeleterLog D × UniquePtr D :=
  match this.first with
  | some p => (log ++ [(this.second, p)], ⟨none, this.second⟩)
  | none => (log, this)

/-- Embeds `UniquePtr::Release` (`unique.h`, lines 99-103): the pointer returned and the
`UniquePtr` afterwards.  No deleter is called, so no log is involved. -/
def UniquePtr.Release {D : Type} (this : UniquePtr D) : Option Addr × UniquePtr D :=
  (this.first, ⟨none, this.second⟩)

/-- Embeds `UniquePtr::Reset(T* ptr)` (`unique.h`, lines 104-110). -/
def UniquePtr.Reset {D : Type} (log : DeleterLog D) (this : UniquePtr D) (ptr : Option Addr) :
    DeleterLog D × UniquePtr D :=
  let old_ptr := this.first
  let this1 : UniquePtr D := ⟨ptr, this.second⟩
  match old_ptr with
  | some p => (log ++ [(this1.second, p)], this1)
  | none => (log, this1)

/-- Embeds `UniquePtr::Swap` (`unique.h`, lines 111-114). -/
def UniquePtr.Swap {D : Type} (this other : UniquePtr D) : UniquePtr D × UniquePtr D :=
  (⟨other.first, other.second⟩, ⟨this.first, this.second⟩)

/-- Embeds `UniquePtr::Get` (`unique.h`, lines 119-121). -/
def UniquePtr.Get {D : Type} (this : UniquePtr D) : Option Addr := this.first

/-- Embeds `UniquePtr::operator bool` (`unique.h`, lines 128-130). -/
def UniquePtr.toBool {D : Type} (this : UniquePtr D) : Bool := this.first.isSome

/-- The deleter call that destroying `u` makes: none for an empty pointer. -/
def UniquePtr.pending {D : Type} (u : UniquePtr D) : DeleterLog D :=
  match u.first with
  | some p => [(u.second, p)]
  | none => []

/-- The program `auto p = MakeIntrusive<T>();` on a heap without other objects: the object
is at address `0`. -/
def Example.intrusiveSole : RefHeap × IntrusivePtr :=
  MakeIntrusive (fun _ => ⟨0, 0⟩) 0

/-- The program `auto p = MakeIntrusive<T>(); p.Reset(p.Get());`. -/
def Example.intrusiveResetToHeld : RefHeap × IntrusivePtr :=
  IntrusivePtr.Reset_ptr Example.intrusiveSole.1 Example.intrusiveSole.2
    Example.intrusiveSole.2.Get

/-- The program `UniquePtr<T> a(p);` with `p` the address `5` and the deleter `0`. -/
def Example.uniqueHolding : UniquePtr Nat := UniquePtr.ctor (some 5) 0

/-- The program `auto* b = new BlockObject<T>(); SharedPtr<T> a(b); WeakPtr<T> w(a);
b->DecStrongCounter(); b->DecStrongCounter();` on the empty heap: the second decrement
wraps the strong count of block `0` from `0` to `2^64 - 1`, the weak pointer keeping the
block allocated. -/
def Example.strongAtMax : Heap :=
  BaseBlock.DecStrongCounter
    (BaseBlock.DecStrongCounter
      (WeakPtr.ctor_shared (MakeShared false Heap.empty).1 (MakeShared false Heap.empty).2).1
      0) 0

/-- The program `auto* b = new BlockObject<T>(); SharedPtr<T> a(b); b->DecWeakCounter();`
on the empty heap: the decrement wraps the weak count of block `0` from `0` to `2^64 - 1`. -/
def Example.weakAtMax : Heap :=
  BaseBlock.DecWeakCounter (MakeShared false Heap.empty).1 0

/-! ## Basic facts about the heap and the counters -/

@[simp] theorem decr_succ (n : Nat) : decr (n + 1) = n := by simp [decr]

@[simp] theorem decr_incr (n : Nat) : decr (incr n) = n := by
  unfold incr
  by_cases hn : n = SIZE_MAX
  · rw [if_pos hn, hn]; rfl
  · rw [if_neg hn]; simp [decr]

theorem incr_of_ne_max (c : Nat) (hc : c ≠ SIZE_MAX) : incr c = c + 1 := by
  unfold incr
  rw [if_neg hc]

theorem incr_max : incr SIZE_MAX = 0 := by
  unfold incr
  rw [if_pos rfl]

@[simp] theorem incr_zero : incr 0 = 1 := by decide

@[simp] theorem incr_one : incr 1 = 2 := by decide

/-- On the values of a `size_t` the pre-increment is addition modulo `2^64`. -/
theorem incr_eq_mod (c : Nat) (hc : c ≤ SIZE_MAX) : incr c = (c + 1) % 2 ^ 64 := by
  unfold incr
  unfold SIZE_MAX at hc ⊢
  by_cases hm : c = 2 ^ 64 - 1
  · rw [if_pos hm, hm]; norm_num
  · rw [if_neg hm, Nat.mod_eq_of_lt (by omega)]

@[simp] theorem Heap.setBlock_blocks_same (h : Heap) (a : Addr) (b : Block) :
    (h.setBlock a b).blocks a = b := by simp [Heap.setBlock]

theorem Heap.setBlock_blocks_other (h : Heap) (a x : Addr) (b : Block) (hx : x ≠ a) :
    (h.setBlock a b).blocks x = h.blocks x := by simp [Heap.setBlock, hx]

@[simp] theorem Heap.setBlock_objs (h : Heap) (a : Addr) (b : Block) :
    (h.setBlock a b).objs = h.objs := rfl

@[simp] theorem Heap.setObj_blocks (h : Heap) (a : Addr) (o : Obj) :
    (h.setObj a o).blocks = h.blocks := rfl

@[simp] theorem Heap.setObj_objs_same (h : Heap) (a : Addr) (o : Obj) :
    (h.setObj a o).objs a = o := by simp [Heap.setObj]

theorem Heap.setObj_objs_other (h : Heap) (a x : Addr) (o : Obj) (hx : x ≠ a) :
    (h.setObj a o).objs x = h.objs x := by simp [Heap.setObj, hx]

/-- Both block variants run the same weak decrement. -/
theorem BaseBlock.DecWeakCounter_eq (h : Heap) (b : Addr) :
    BaseBlock.DecWeakCounter h b = BlockPointer.DecWeakCounter h b := by
  unfold BaseBlock.DecWeakCounter
  cases (h.blocks b).kind <;> rfl

theorem BaseBlock.DecStrongCounter_eq (h : Heap) (b : Addr) :
    BaseBlock.DecStrongCounter h b = BlockPointer.DecStrongCounter h b := by
  unfold BaseBlock.DecStrongCounter
  cases (h.blocks b).kind <;> rfl

theorem BaseBlock.IncStrongCounter_eq (h : Heap) (b : Addr) :
    BaseBlock.IncStrongCounter h b = BlockPointer.IncStrongCounter h b := by
  unfold BaseBlock.IncStrongCounter
  cases (h.blocks b).kind <;> rfl

theorem BaseBlock.IncWeakCounter_eq (h : Heap) (b : Addr) :
    BaseBlock.IncWeakCounter h b = BlockPointer.IncWeakCounter h b := by
  unfold BaseBlock.IncWeakCounter
  cases (h.blocks b).kind <;> rfl

theorem BaseBlock.GetStrongCounter_eq (h : Heap) (b : Addr) :
    BaseBlock.GetStrongCounter h b = (h.blocks b).strong_counter_ := by
  unfold BaseBlock.GetStrongCounter
  cases (h.blocks b).kind <;> rfl

theorem DecWeak_blocks_self (h : Heap) (b : Addr) :
    (BaseBlock.DecWeakCounter h b).blocks b =
      { h.blocks b with
        weak_counter_ := decr (h.blocks b).weak_counter_,
        deleted := if decr (h.blocks b).weak_counter_ = 0 ∧ (h.blocks b).strong_counter_ = 0
          then (h.blocks b).deleted + 1 else (h.blocks b).deleted } := by
  rw [BaseBlock.DecWeakCounter_eq]
  unfold BlockPointer.DecWeakCounter Heap.deleteThis
  simp only [Heap.setBlock_blocks_same]
  split <;> simp_all

theorem DecWeak_blocks_other (h : Heap) (b x : Addr) (hx : x ≠ b) :
    (BaseBlock.DecWeakCounter h b).blocks x = h.blocks x := by
  rw [BaseBlock.DecWeakCounter_eq]
  unfold BlockPointer.DecWeakCounter Heap.deleteThis
  simp only [Heap.setBlock_blocks_same]
  split <;> simp [Heap.setBlock_blocks_other, hx]

@[simp] theorem DecWeak_objs (h : Heap) (b : Addr) :
    (BaseBlock.DecWeakCounter h b).objs = h.objs := by
  rw [BaseBlock.DecWeakCounter_eq]
  unfold BlockPointer.DecWeakCounter Heap.deleteThis
  simp only [Heap.setBlock_blocks_same]
  split <;> rfl

@[simp] theorem WeakPtr_dtor_objs (h : Heap) (w : WeakPtr) :
    (WeakPtr.dtor h w).objs = h.objs := by
  unfold WeakPtr.dtor
  cases w.block_ <;> simp

theorem Obj_dtor_objs (h : Heap) (o x : Addr) :
    (Obj.dtor h o).objs x =
      if x = o then { h.objs o with destroyed := (h.objs o).destroyed + 1 } else h.objs x := by
  unfold Obj.dtor
  simp [Heap.setObj]

theorem Obj_dtor_blocks (h : Heap) (o : Addr) :
    (Obj.dtor h o).blocks = (WeakPtr.dtor h (h.objs o).weak_this_).blocks := by
  unfold Obj.dtor
  simp only [Heap.setObj_objs_same]
  unfold WeakPtr.dtor
  cases (h.objs o).weak_this_.block_ with
  | none => rfl
  | some b =>
    funext x
    by_cases hx : x = b
    · subst hx; simp [DecWeak_blocks_self]
    · simp [DecWeak_blocks_other, hx]

theorem DecStrong_not_last (h : Heap) (b : Addr)
    (hs : decr (h.blocks b).strong_counter_ ≠ 0) :
    BaseBlock.DecStrongCounter h b =
      h.setBlock b { h.blocks b with strong_counter_ := decr (h.blocks b).strong_counter_ } := by
  rw [BaseBlock.DecStrongCounter_eq]
  unfold BlockPointer.DecStrongCounter
  simp [hs]

theorem deleteObject_objs (h : Heap) (p : Option Addr) (x : Addr) :
    (deleteObject h p).objs x =
      if p = some x then { h.objs x with destroyed := (h.objs x).destroyed + 1 }
      else h.objs x := by
  unfold deleteObject
  cases p with
  | none => simp
  | some o =>
    simp only [Obj_dtor_objs, Option.some.injEq]
    by_cases hx : x = o
    · subst hx; simp
    · have : ¬ o = x := fun e => hx e.symm
      simp [hx, this]

@[simp] theorem DecStrong_objs (h : Heap) (b : Addr) (x : Addr) :
    (BaseBlock.DecStrongCounter h b).objs x =
      if decr (h.blocks b).strong_counter_ = 0 ∧ (h.blocks b).object_ = some x then
        { h.objs x with destroyed := (h.objs x).destroyed + 1 }
      else h.objs x := by
  rw [BaseBlock.DecStrongCounter_eq]
  unfold BlockPointer.DecStrongCounter
  simp only [Heap.setBlock_blocks_same]
  by_cases hs : decr (h.blocks b).strong_counter_ = 0
  · simp only [hs, if_true, true_and]
    split <;> simp [Heap.deleteThis, deleteObject_objs]
  · simp [hs]

/-- The control block `b` after `delete object_` was run from inside `b` itself: the
nested `~WeakPtr()` of the object's `weak_this_` decrements the weak count of `b` exactly
when that member refers to `b`. -/
theorem deleteObject_blocks_self (g : Heap) (p : Option Addr) (b : Addr) :
    (deleteObject g p).blocks b =
      if g.selfRefsOf p b = 1 then (BaseBlock.DecWeakCounter g b).blocks b else g.blocks b := by
  unfold deleteObject Heap.selfRefsOf
  cases p with
  | none => simp
  | some o =>
    simp only [Obj_dtor_blocks]
    unfold WeakPtr.dtor
    obtain hb | ⟨b2, hb⟩ : (g.objs o).weak_this_.block_ = none ∨
        ∃ b2, (g.objs o).weak_this_.block_ = some b2 := by
      cases (g.objs o).weak_this_.block_ <;> simp
    · simp [hb]
    · by_cases hx : b2 = b
      · subst hx; simp [hb]
      · simp [hb, hx, DecWeak_blocks_other g b2 b (fun e => hx e.symm)]

theorem DecStrong_last_block (h : Heap) (b : Addr)
    (hs : (h.blocks b).strong_counter_ = 1)
    (hw : h.selfRefs b ≤ (h.blocks b).weak_counter_) :
    (BaseBlock.DecStrongCounter h b).blocks b =
      { h.blocks b with
        strong_counter_ := 0,
        weak_counter_ := (h.blocks b).weak_counter_ - h.selfRefs b,
        deleted := if (h.blocks b).weak_counter_ - h.selfRefs b = 0
          then (h.blocks b).deleted + 1 else (h.blocks b).deleted } := by
  rw [BaseBlock.DecStrongCounter_eq]
  unfold BlockPointer.DecStrongCounter
  simp only [Heap.setBlock_blocks_same, hs, decr_succ, if_true]
  have key := deleteObject_blocks_self
    ((h.setBlock b { h.blocks b with strong_counter_ := 0 }).setBlock b
      { h.blocks b with strong_counter_ := 0, weak_counter_ := incr (h.blocks b).weak_counter_ })
    (h.blocks b).object_ b
  have hsr : Heap.selfRefsOf
    ((h.setBlock b { h.blocks b with strong_counter_ := 0 }).setBlock b
      { h.blocks b with strong_counter_ := 0, weak_counter_ := incr (h.blocks b).weak_counter_ })
    (h.blocks b).object_ b = h.selfRefs b := rfl
  rw [hsr] at key
  generalize deleteObject
    ((h.setBlock b { h.blocks b with strong_counter_ := 0 }).setBlock b
      { h.blocks b with strong_counter_ := 0, weak_counter_ := incr (h.blocks b).weak_counter_ })
    (h.blocks b).object_ = h3 at key ⊢
  have hle : h.selfRefs b ≤ 1 := by
    unfold Heap.selfRefs Heap.selfRefsOf
    split
    · omega
    · split <;> omega
  by_cases h1 : h.selfRefs b = 1
  · rw [if_pos h1, DecWeak_blocks_self] at key
    simp only [Heap.setBlock_blocks_same, decr_incr] at key
    rw [h1] at hw ⊢
    have hne : (h.blocks b).weak_counter_ ≠ 0 := by omega
    simp only [hne, false_and, if_false] at key
    unfold Heap.deleteThis
    split <;> rename_i hz <;> simp only [Heap.setBlock_blocks_same, key, decr] at hz ⊢ <;>
      simp only [hne, if_false] at hz ⊢ <;> simp [hz]
  · have h0 : h.selfRefs b = 0 := by omega
    rw [if_neg h1] at key
    simp only [Heap.setBlock_blocks_same] at key
    rw [h0]
    unfold Heap.deleteThis
    split <;> rename_i hz <;> simp only [Heap.setBlock_blocks_same, key, decr_incr] at hz ⊢ <;>
      simp [hz]

/-! ## Releasing the owners of a block one after the other -/

theorem SharedPtr_dtor_of_block (h : Heap) (p : SharedPtr) (b : Addr) (hp : p.block_ = some b) :
    SharedPtr.dtor h p = BaseBlock.DecStrongCounter h b := by
  unfold SharedPtr.dtor
  simp [hp]

theorem WeakPtr_dtor_of_block (h : Heap) (w : WeakPtr) (b : Addr) (hw : w.block_ = some b) :
    WeakPtr.dtor h w = BaseBlock.DecWeakCounter h b := by
  unfold WeakPtr.dtor
  simp [hw]

theorem decr_of_two_le (s : Nat) (hs : 2 ≤ s) : decr s = s - 1 ∧ decr s ≠ 0 := by
  unfold decr
  have : s ≠ 0 := by omega
  rw [if_neg this]
  omega

/-- Releasing fewer owners than the strong count only lowers the strong count. -/
theorem SharedPtr_dtorAll_partial (b : Addr) (l : List SharedPtr) :
    ∀ h : Heap, (∀ p ∈ l, p.block_ = some b) → l.length < (h.blocks b).strong_counter_ →
      (SharedPtr.dtorAll h l).blocks b =
        { h.blocks b with strong_counter_ := (h.blocks b).strong_counter_ - l.length } ∧
      (SharedPtr.dtorAll h l).objs = h.objs := by
  induction l with
  | nil => intro h _ _; simp [SharedPtr.dtorAll]
  | cons p t ih =>
    intro h hall hlen
    have hp : p.block_ = some b := hall p (List.mem_cons_self _ _)
    have ht : ∀ q ∈ t, q.block_ = some b := fun q hq => hall q (List.mem_cons_of_mem _ hq)
    simp only [List.length_cons] at hlen
    obtain ⟨hd, hd0⟩ := decr_of_two_le (h.blocks b).strong_counter_ (by omega)
    have hstep : SharedPtr.dtor h p =
        h.setBlock b { h.blocks b with strong_counter_ := (h.blocks b).strong_counter_ - 1 } := by
      rw [SharedPtr_dtor_of_block h p b hp, DecStrong_not_last h b hd0, hd]
    have hfold : SharedPtr.dtorAll h (p :: t) = SharedPtr.dtorAll (SharedPtr.dtor h p) t := rfl
    rw [hfold, hstep]
    obtain ⟨ih1, ih2⟩ := ih (h.setBlock b
      { h.blocks b with strong_counter_ := (h.blocks b).strong_counter_ - 1 }) ht
      (by simp only [Heap.setBlock_blocks_same]; omega)
    refine ⟨?_, ?_⟩
    · rw [ih1]
      simp only [Heap.setBlock_blocks_same, List.length_cons, Block.mk.injEq, true_and, and_true]
      omega
    · rw [ih2]; rfl

/-- Releasing all the owners of a block: the managed object is destroyed once, and the block
is left with strong count zero, its weak count without the object's self-reference, and
deallocated when no weak count is left. -/
theorem SharedPtr_dtorAll_full (b : Addr) (l : List SharedPtr) :
    ∀ h : Heap, l ≠ [] → (∀ p ∈ l, p.block_ = some b) →
      (h.blocks b).strong_counter_ = l.length →
      (∀ x, (SharedPtr.dtorAll h l).objs x =
        if (h.blocks b).object_ = some x then
          { h.objs x with destroyed := (h.objs x).destroyed + 1 }
        else h.objs x) ∧
      (h.selfRefs b ≤ (h.blocks b).weak_counter_ →
        (SharedPtr.dtorAll h l).blocks b =
          { h.blocks b with
            strong_counter_ := 0,
            weak_counter_ := (h.blocks b).weak_counter_ - h.selfRefs b,
            deleted := if (h.blocks b).weak_counter_ - h.selfRefs b = 0
              then (h.blocks b).deleted + 1 else (h.blocks b).deleted }) := by
  induction l with
  | nil => intro h hne; exact absurd rfl hne
  | cons p t ih =>
    intro h _ hall hlen
    have hp : p.block_ = some b := hall p (List.mem_cons_self _ _)
    have ht : ∀ q ∈ t, q.block_ = some b := fun q hq => hall q (List.mem_cons_of_mem _ hq)
    have hfold : SharedPtr.dtorAll h (p :: t) = SharedPtr.dtorAll (SharedPtr.dtor h p) t := rfl
    simp only [List.length_cons] at hlen
    by_cases hnil : t = []
    · subst hnil
      simp only [List.length_nil, Nat.zero_add] at hlen
      have hfold1 : SharedPtr.dtorAll h [p] = BaseBlock.DecStrongCounter h b := by
        rw [hfold, SharedPtr_dtor_of_block h p b hp]; rfl
      rw [hfold1]
      refine ⟨?_, fun hw => DecStrong_last_block h b hlen hw⟩
      intro x
      simp [hlen, decr]
    · obtain ⟨hd, hd0⟩ := decr_of_two_le (h.blocks b).strong_counter_ (by
        have : 0 < t.length := List.length_pos.mpr hnil
        omega)
      have hstep : SharedPtr.dtor h p =
          h.setBlock b { h.blocks b with strong_counter_ := (h.blocks b).strong_counter_ - 1 } := by
        rw [SharedPtr_dtor_of_block h p b hp, DecStrong_not_last h b hd0, hd]
      rw [hfold, hstep]
      obtain ⟨ih1, ih2⟩ := ih (h.setBlock b
        { h.blocks b with strong_counter_ := (h.blocks b).strong_counter_ - 1 }) hnil ht
        (by simp only [Heap.setBlock_blocks_same]; omega)
      have hsr : (h.setBlock b
          { h.blocks b with strong_counter_ := (h.blocks b).strong_counter_ - 1 }).selfRefs b =
          h.selfRefs b := by
        simp [Heap.selfRefs, Heap.selfRefsOf]
      refine ⟨?_, ?_⟩
      · intro x
        rw [ih1 x]
        simp
      · intro hw
        rw [ih2 (by rw [hsr]; simpa using hw), hsr]
        simp

/-- Releasing fewer weak pointers than the weak count only lowers the weak count. -/
theorem WeakPtr_dtorAll_partial (b : Addr) (l : List WeakPtr) :
    ∀ h : Heap, (∀ w ∈ l, w.block_ = some b) → l.length < (h.blocks b).weak_counter_ →
      (WeakPtr.dtorAll h l).blocks b =
        { h.blocks b with weak_counter_ := (h.blocks b).weak_counter_ - l.length } := by
  induction l with
  | nil => intro h _ _; simp [WeakPtr.dtorAll]
  | cons p t ih =>
    intro h hall hlen
    have hp : p.block_ = some b := hall p (List.mem_cons_self _ _)
    have ht : ∀ q ∈ t, q.block_ = some b := fun q hq => hall q (List.mem_cons_of_mem _ hq)
    simp only [List.length_cons] at hlen
    obtain ⟨hd, hd0⟩ := decr_of_two_le (h.blocks b).weak_counter_ (by omega)
    have hfold : WeakPtr.dtorAll h (p :: t) = WeakPtr.dtorAll (WeakPtr.dtor h p) t := rfl
    have hstep : (WeakPtr.dtor h p).blocks b =
        { h.blocks b with weak_counter_ := (h.blocks b).weak_counter_ - 1 } := by
      rw [WeakPtr_dtor_of_block h p b hp, DecWeak_blocks_self, hd]
      have : ¬ ((h.blocks b).weak_counter_ - 1 = 0) := by omega
      simp [this]
    rw [hfold, ih (WeakPtr.dtor h p) ht (by rw [hstep]; simp only; omega), hstep]
    simp only [List.length_cons, Block.mk.injEq, true_and, and_true]
    omega

/-- Releasing all the weak pointers of a block whose strong count is already zero
deallocates the block, once. -/
theorem WeakPtr_dtorAll_full (b : Addr) (l : List WeakPtr) :
    ∀ h : Heap, l ≠ [] → (∀ w ∈ l, w.block_ = some b) →
      (h.blocks b).weak_counter_ = l.length → (h.blocks b).strong_counter_ = 0 →
      (WeakPtr.dtorAll h l).blocks b =
        { h.blocks b with weak_counter_ := 0, deleted := (h.blocks b).deleted + 1 } := by
  induction l with
  | nil => intro h hne; exact absurd rfl hne
  | cons p t ih =>
    intro h _ hall hlen hs
    have hp : p.block_ = some b := hall p (List.mem_cons_self _ _)
    have ht : ∀ q ∈ t, q.block_ = some b := fun q hq => hall q (List.mem_cons_of_mem _ hq)
    have hfold : WeakPtr.dtorAll h (p :: t) = WeakPtr.dtorAll (WeakPtr.dtor h p) t := rfl
    simp only [List.length_cons] at hlen
    by_cases hnil : t = []
    · subst hnil
      simp only [List.length_nil, Nat.zero_add] at hlen
      have hfold1 : WeakPtr.dtorAll h [p] = BaseBlock.DecWeakCounter h b := by
        rw [hfold, WeakPtr_dtor_of_block h p b hp]; rfl
      rw [hfold1, DecWeak_blocks_self]
      simp [hlen, hs, decr]
    · obtain ⟨hd, hd0⟩ := decr_of_two_le (h.blocks b).weak_counter_ (by
        have : 0 < t.length := List.length_pos.mpr hnil
        omega)
      have hstep : (WeakPtr.dtor h p).blocks b =
          { h.blocks b with weak_counter_ := (h.blocks b).weak_counter_ - 1 } := by
        rw [WeakPtr_dtor_of_block h p b hp, DecWeak_blocks_self, hd]
        have : ¬ ((h.blocks b).weak_counter_ - 1 = 0) := by omega
        simp [this]
      rw [hfold, ih (WeakPtr.dtor h p) hnil ht (by rw [hstep]; simp only; omega)
        (by rw [hstep]; exact hs), hstep]

/-- The call `DecWeakCounter` leaves the `deleted` count alone while the strong count is positive. -/
theorem DecWeak_keeps_block_while_owned (g : Heap) (x : Addr)
    (hs : 0 < (g.blocks x).strong_counter_) :
    ((BaseBlock.DecWeakCounter g x).blocks x).deleted = (g.blocks x).deleted := by
  rw [DecWeak_blocks_self]
  have : (g.blocks x).strong_counter_ ≠ 0 := by omega
  simp [this]

theorem WeakPtr_Reset_heap (h : Heap) (w : WeakPtr) :
    (WeakPtr.Reset h w).1 = WeakPtr.dtor h w := by
  unfold WeakPtr.Reset WeakPtr.dtor
  cases w.block_ <;> rfl

theorem SharedPtr_Reset_heap (h : Heap) (p : SharedPtr) :
    (SharedPtr.Reset h p).1 = SharedPtr.dtor h p := by
  unfold SharedPtr.Reset SharedPtr.dtor
  cases p.block_ <;> rfl

/-- C2.  A block with strong count 1 and `ws.length ≥ 1` outstanding weak pointers (besides
the self-reference of its object, if installed): the `DecStrongCounter` call that takes the
strong count to zero destroys the object once and does not deallocate the block; releasing
the weak pointers (by `~WeakPtr` or, with the same effect on the heap, `Reset`) leaves the
block allocated until the last one, whose `DecWeakCounter` deallocates it, once; and
`DecWeakCounter` deallocates no block whose strong count is positive. -/
theorem C2_block_outlives_object_until_last_weak (h : Heap) (b o : Addr) (ws : List WeakPtr)
    (hlive : (h.blocks b).deleted = 0)
    (hstrong : (h.blocks b).strong_counter_ = 1)
    (hobj : (h.blocks b).object_ = some o)
    (hne : ws ≠ [])
    (hws : ∀ w ∈ ws, w.block_ = some b)
    (hweak : (h.blocks b).weak_counter_ = ws.length + h.selfRefs b) :
    ((BaseBlock.DecStrongCounter h b).objs o).destroyed = (h.objs o).destroyed + 1 ∧
    ((BaseBlock.DecStrongCounter h b).blocks b).strong_counter_ = 0 ∧
    ((BaseBlock.DecStrongCounter h b).blocks b).weak_counter_ = ws.length ∧
    ((BaseBlock.DecStrongCounter h b).blocks b).deleted = 0 ∧
    (∀ k, k < ws.length →
      ((WeakPtr.dtorAll (BaseBlock.DecStrongCounter h b) (ws.take k)).blocks b).deleted = 0 ∧
      ((WeakPtr.dtorAll (BaseBlock.DecStrongCounter h b) (ws.take k)).blocks b).weak_counter_
        = ws.length - k) ∧
    ((WeakPtr.dtorAll (BaseBlock.DecStrongCounter h b) ws).blocks b).deleted = 1 ∧
    ((WeakPtr.dtorAll (BaseBlock.DecStrongCounter h b) ws).blocks b).weak_counter_ = 0 ∧
    (∀ (g : Heap) (w : WeakPtr), (WeakPtr.Reset g w).1 = WeakPtr.dtor g w) ∧
    (∀ (g : Heap) (x : Addr), 0 < (g.blocks x).strong_counter_ →
      ((BaseBlock.DecWeakCounter g x).blocks x).deleted = (g.blocks x).deleted) := by
  have hpos : 0 < ws.length := List.length_pos.mpr hne
  have hlast := DecStrong_last_block h b hstrong (by omega)
  have hw1 : (h.blocks b).weak_counter_ - h.selfRefs b = ws.length := by omega
  have hw0 : ¬ (ws.length = 0) := by omega
  rw [hw1] at hlast
  simp only [hw0, if_false] at hlast
  refine ⟨?_, ?_, ?_, ?_, ?_, ?_, ?_, WeakPtr_Reset_heap, DecWeak_keeps_block_while_owned⟩
  · simp [hstrong, hobj, decr]
  · rw [hlast]
  · rw [hlast]
  · rw [hlast]; exact hlive
  · intro k hk
    have hlen : (ws.take k).length = k := by simp; omega
    have hpart := WeakPtr_dtorAll_partial b (ws.take k) (BaseBlock.DecStrongCounter h b)
      (fun w hw => hws w (List.mem_of_mem_take hw))
      (by rw [hlast, hlen]; exact hk)
    rw [hpart, hlast, hlen]
    exact ⟨hlive, rfl⟩
  · rw [WeakPtr_dtorAll_full b ws (BaseBlock.DecStrongCounter h b) hne hws
      (by rw [hlast]) (by rw [hlast]), hlast]
    simp [hlive]
  · rw [WeakPtr_dtorAll_full b ws (BaseBlock.DecStrongCounter h b) hne hws
      (by rw [hlast]) (by rw [hlast])]

/-! ## Promotion and `Lock` -/

theorem Expired_iff (g : Heap) (v : WeakPtr) :
    WeakPtr.Expired g v = true ↔
      (v.block_ = none ∨ ∃ x, v.block_ = some x ∧ (g.blocks x).strong_counter_ = 0) := by
  unfold WeakPtr.Expired
  cases hv : v.block_ with
  | none => simp
  | some x => simp [BaseBlock.GetStrongCounter_eq]

theorem Expired_false_iff (g : Heap) (v : WeakPtr) :
    WeakPtr.Expired g v = false ↔ ∃ x, v.block_ = some x ∧ (g.blocks x).strong_counter_ ≠ 0 := by
  unfold WeakPtr.Expired
  cases hv : v.block_ with
  | none => simp
  | some x => simp [BaseBlock.GetStrongCounter_eq]

theorem IncStrong_blocks_self (h : Heap) (b : Addr) :
    (BaseBlock.IncStrongCounter h b).blocks b =
      { h.blocks b with strong_counter_ := incr (h.blocks b).strong_counter_ } := by
  rw [BaseBlock.IncStrongCounter_eq]
  simp [BlockPointer.IncStrongCounter]

theorem IncStrong_blocks_other (h : Heap) (b x : Addr) (hx : x ≠ b) :
    (BaseBlock.IncStrongCounter h b).blocks x = h.blocks x := by
  rw [BaseBlock.IncStrongCounter_eq]
  simp [BlockPointer.IncStrongCounter, Heap.setBlock_blocks_other, hx]

@[simp] theorem IncStrong_objs (h : Heap) (b : Addr) :
    (BaseBlock.IncStrongCounter h b).objs = h.objs := by
  rw [BaseBlock.IncStrongCounter_eq]
  rfl

theorem ctor_weak_expired (h : Heap) (w : WeakPtr) (he : WeakPtr.Expired h w = true) :
    SharedPtr.ctor_weak h w = (h, Except.error BadWeakPtr.mk) := by
  unfold SharedPtr.ctor_weak
  simp [he]

theorem ctor_weak_live (h : Heap) (w : WeakPtr) (b : Addr) (hb : w.block_ = some b)
    (hs : (h.blocks b).strong_counter_ ≠ 0) :
    SharedPtr.ctor_weak h w =
      (BaseBlock.IncStrongCounter h b, Except.ok ⟨w.block_, w.observer_⟩) := by
  have he : WeakPtr.Expired h w = false := (Expired_false_iff h w).mpr ⟨b, hb, hs⟩
  unfold SharedPtr.ctor_weak
  simp [he, hb]

/-- Promotion of a weak pointer that is not expired: the result and the heap. -/
theorem ctor_weak_not_expired (h : Heap) (w : WeakPtr) (he : WeakPtr.Expired h w = false) :
    ∃ b, w.block_ = some b ∧
      (SharedPtr.ctor_weak h w).2 = Except.ok ⟨w.block_, w.observer_⟩ ∧
      (SharedPtr.ctor_weak h w).1.blocks b =
        { h.blocks b with strong_counter_ := incr (h.blocks b).strong_counter_ } ∧
      ((h.blocks b).strong_counter_ ≠ SIZE_MAX →
        ((SharedPtr.ctor_weak h w).1.blocks b).strong_counter_
          = (h.blocks b).strong_counter_ + 1) ∧
      ((h.blocks b).strong_counter_ = SIZE_MAX →
        ((SharedPtr.ctor_weak h w).1.blocks b).strong_counter_ = 0) ∧
      (∀ x, x ≠ b → (SharedPtr.ctor_weak h w).1.blocks x = h.blocks x) ∧
      (SharedPtr.ctor_weak h w).1.objs = h.objs := by
  obtain ⟨b, hb, hs⟩ := (Expired_false_iff h w).mp he
  refine ⟨b, hb, ?_⟩
  rw [ctor_weak_live h w b hb hs]
  refine ⟨rfl, IncStrong_blocks_self h b, ?_, ?_,
    fun x hx => IncStrong_blocks_other h b x hx, IncStrong_objs h b⟩
  · intro hne
    simp only [IncStrong_blocks_self]
    exact incr_of_ne_max _ hne
  · intro hmax
    simp only [IncStrong_blocks_self]
    rw [hmax, incr_max]

/-- C3 fails where the counter wraps: on a block whose strong count is `2^64 - 1` the
weak pointer is not expired, promotion returns a pointer, and the strong count afterwards is
`0`, not one greater. -/
theorem C3_promotion_wraps_at_size_max :
    (Example.strongAtMax.blocks 0).strong_counter_ = 2 ^ 64 - 1 ∧
    (Example.strongAtMax.blocks 0).deleted = 0 ∧
    WeakPtr.Expired Example.strongAtMax ⟨some 0, some 0⟩ = false ∧
    (SharedPtr.ctor_weak Example.strongAtMax ⟨some 0, some 0⟩).2
      = Except.ok ⟨some 0, some 0⟩ ∧
    ((SharedPtr.ctor_weak Example.strongAtMax ⟨some 0, some 0⟩).1.blocks 0).strong_counter_
      = 0 := by
  refine ⟨by decide, by decide, by decide, rfl, by decide⟩

/-- C3, amended.  `SharedPtr(const WeakPtr&)` throws `BadWeakPtr` exactly when the weak
pointer is expired, that is empty or with strong count zero; a throwing call leaves the heap
as it was; a call that does not throw yields the weak pointer's block and observer and
pre-increments the `size_t` strong count of that block: one greater than before unless it
was `2^64 - 1`, when it becomes `0`; every other field of the block, every other block and
every object stay as they were. -/
theorem C3_promotion_throws_iff_expired (h : Heap) (w : WeakPtr) :
    ((SharedPtr.ctor_weak h w).2 = Except.error BadWeakPtr.mk ↔ WeakPtr.Expired h w = true) ∧
    (WeakPtr.Expired h w = true ↔
      (w.block_ = none ∨ ∃ b, w.block_ = some b ∧ (h.blocks b).strong_counter_ = 0)) ∧
    (WeakPtr.Expired h w = true → (SharedPtr.ctor_weak h w).1 = h) ∧
    (WeakPtr.Expired h w = false → ∃ b, w.block_ = some b ∧
      (SharedPtr.ctor_weak h w).2 = Except.ok ⟨w.block_, w.observer_⟩ ∧
      (SharedPtr.ctor_weak h w).1.blocks b =
        { h.blocks b with strong_counter_ := incr (h.blocks b).strong_counter_ } ∧
      ((h.blocks b).strong_counter_ ≠ SIZE_MAX →
        ((SharedPtr.ctor_weak h w).1.blocks b).strong_counter_
          = (h.blocks b).strong_counter_ + 1) ∧
      ((h.blocks b).strong_counter_ = SIZE_MAX →
        ((SharedPtr.ctor_weak h w).1.blocks b).strong_counter_ = 0) ∧
      (∀ x, x ≠ b → (SharedPtr.ctor_weak h w).1.blocks x = h.blocks x) ∧
      (SharedPtr.ctor_weak h w).1.objs = h.objs) := by
  refine ⟨?_, Expired_iff h w, ?_, ?_⟩
  · constructor
    · intro hr
      by_contra hne
      have he : WeakPtr.Expired h w = false := by simpa using hne
      obtain ⟨b, hb, hs⟩ := (Expired_false_iff h w).mp he
      rw [ctor_weak_live h w b hb hs] at hr
      cases hr
    · intro he
      rw [ctor_weak_expired h w he]
  · intro he
    rw [ctor_weak_expired h w he]
  · exact ctor_weak_not_expired h w

/-- C4 fails where the counter wraps: on a block whose strong count is `2^64 - 1` the
weak pointer is not expired, `Lock` returns a pointer with that block, and the strong count
afterwards is `0`, not one greater. -/
theorem C4_lock_wraps_at_size_max :
    (Example.strongAtMax.blocks 0).strong_counter_ = 2 ^ 64 - 1 ∧
    WeakPtr.Expired Example.strongAtMax ⟨some 0, some 0⟩ = false ∧
    (WeakPtr.Lock Example.strongAtMax ⟨some 0, some 0⟩).2 = Except.ok ⟨some 0, some 0⟩ ∧
    ((WeakPtr.Lock Example.strongAtMax ⟨some 0, some 0⟩).1.blocks 0).strong_counter_
      = 0 := by
  refine ⟨by decide, by decide, rfl, by decide⟩

/-- C4, amended.  `WeakPtr::Lock` always returns a pointer and never throws.  On an expired
weak pointer the result is the empty `SharedPtr` (use count `0`, `Get()` null) and the heap
is untouched; otherwise the result has the weak pointer's block and observer and the `size_t`
strong count of that block has been pre-incremented: one greater than before unless it was
`2^64 - 1`, when it becomes `0`; nothing else has changed. -/
theorem C4_lock_never_throws (h : Heap) (w : WeakPtr) :
    (∃ p, (WeakPtr.Lock h w).2 = Except.ok p) ∧
    (WeakPtr.Expired h w = true →
      WeakPtr.Lock h w = (h, Except.ok ⟨none, none⟩) ∧
      SharedPtr.UseCount (WeakPtr.Lock h w).1 ⟨none, none⟩ = 0 ∧
      SharedPtr.Get ⟨none, none⟩ = none) ∧
    (WeakPtr.Expired h w = false → ∃ b, w.block_ = some b ∧
      (WeakPtr.Lock h w).2 = Except.ok ⟨w.block_, w.observer_⟩ ∧
      (WeakPtr.Lock h w).1.blocks b =
        { h.blocks b with strong_counter_ := incr (h.blocks b).strong_counter_ } ∧
      ((h.blocks b).strong_counter_ ≠ SIZE_MAX →
        ((WeakPtr.Lock h w).1.blocks b).strong_counter_ = (h.blocks b).strong_counter_ + 1) ∧
      ((h.blocks b).strong_counter_ = SIZE_MAX →
        ((WeakPtr.Lock h w).1.blocks b).strong_counter_ = 0) ∧
      (∀ x, x ≠ b → (WeakPtr.Lock h w).1.blocks x = h.blocks x) ∧
      (WeakPtr.Lock h w).1.objs = h.objs) := by
  have hexp : WeakPtr.Expired h w = true →
      WeakPtr.Lock h w = (h, Except.ok ⟨none, none⟩) := by
    intro he
    unfold WeakPtr.Lock
    simp [he, SharedPtr.ctor_default]
  have hlive : WeakPtr.Expired h w = false →
      WeakPtr.Lock h w = SharedPtr.ctor_weak h w := by
    intro he
    unfold WeakPtr.Lock
    simp [he]
  refine ⟨?_, ?_, ?_⟩
  · cases he : WeakPtr.Expired h w with
    | true => exact ⟨_, by rw [hexp he]⟩
    | false =>
      obtain ⟨b, hb, hs⟩ := (Expired_false_iff h w).mp he
      exact ⟨_, by rw [hlive he, ctor_weak_live h w b hb hs]⟩
  · intro he
    exact ⟨hexp he, rfl, rfl⟩
  · intro he
    rw [hlive he]
    exact ctor_weak_not_expired h w he

/-! ## Expiry, aliasing and the single-allocation factory -/

/-- C5.  A weak pointer `w` of a group whose strong count equals the number of its owners:
while fewer than all owners have been released (by `~SharedPtr` or, with the same effect on
the heap, `Reset()`), `w.Expired()` is false; once the last one is released it is true, and
the block `w` reads is still allocated.  `Expired()` is true exactly for an empty pointer or
a strong count of zero. -/
theorem C5_expired_exactly_after_last_owner (h : Heap) (b : Addr) (owners : List SharedPtr)
    (w : WeakPtr)
    (hw : w.block_ = some b)
    (hne : owners ≠ [])
    (hown : ∀ p ∈ owners, p.block_ = some b)
    (hcount : (h.blocks b).strong_counter_ = owners.length)
    (hlive : (h.blocks b).deleted = 0)
    (hweak : h.selfRefs b < (h.blocks b).weak_counter_) :
    (∀ k, k < owners.length →
      WeakPtr.Expired (SharedPtr.dtorAll h (owners.take k)) w = false) ∧
    WeakPtr.Expired (SharedPtr.dtorAll h owners) w = true ∧
    ((SharedPtr.dtorAll h owners).blocks b).deleted = 0 ∧
    (∀ (g : Heap) (p : SharedPtr), (SharedPtr.Reset g p).1 = SharedPtr.dtor g p) ∧
    (∀ (g : Heap) (v : WeakPtr), WeakPtr.Expired g v = true ↔
      (v.block_ = none ∨ ∃ x, v.block_ = some x ∧ (g.blocks x).strong_counter_ = 0)) := by
  obtain ⟨_, hfull⟩ := SharedPtr_dtorAll_full b owners h hne hown hcount
  have hblock := hfull (by omega)
  have hnz : ¬ ((h.blocks b).weak_counter_ - h.selfRefs b = 0) := by omega
  simp only [hnz, if_false] at hblock
  refine ⟨?_, ?_, ?_, SharedPtr_Reset_heap, Expired_iff⟩
  · intro k hk
    have hlen : (owners.take k).length = k := by simp; omega
    obtain ⟨hpart, _⟩ := SharedPtr_dtorAll_partial b (owners.take k) h
      (fun p hp => hown p (List.mem_of_mem_take hp)) (by rw [hlen, hcount]; exact hk)
    refine (Expired_false_iff _ w).mpr ⟨b, hw, ?_⟩
    rw [hpart, hlen]
    simp only
    omega
  · refine (Expired_iff _ w).mpr (Or.inr ⟨b, hw, ?_⟩)
    rw [hblock]
  · rw [hblock]
    exact hlive

theorem MakeShared_esft_result (h : Heap) :
    (MakeShared true h).2 = ⟨some h.nextBlock, some h.nextObj⟩ ∧
    (MakeShared true h).1.blocks h.nextBlock =
      ⟨BlockKind.object, 1, 1, some h.nextObj, 0⟩ ∧
    (MakeShared true h).1.objs h.nextObj = ⟨⟨some h.nextBlock, some h.nextObj⟩, 0⟩ := by
  refine ⟨?_, ?_, ?_⟩ <;>
    simp [MakeShared, BlockObject.new, Heap.newObject, SharedPtr.ctor_block,
      SharedPtr.InitWeakThis, WeakPtr.ctor_shared, WeakPtr.assign_move, WeakPtr.dtor,
      BlockObject.GetObserver, BaseBlock.IncWeakCounter_eq, BlockPointer.IncWeakCounter,
      Heap.setBlock, Heap.setObj]

/-- C1, evaluated at `SharedPtr<T> a(new T); WeakPtr<T> w(a); a = a;` followed by `~a`:
before the assignment `a` is the sole owner and the object is alive; the self-assignment
runs the object's destructor although `a` keeps owning it with use count `1`; the destructor
of `a` then runs the object's destructor a second time. -/
theorem C1_self_assignment_destroys_twice :
    SharedPtr.UseCount Example.soleOwnerWithWeak.1 Example.soleOwner.2 = 1 ∧
    (Example.soleOwnerWithWeak.1.objs 0).destroyed = 0 ∧
    (SharedPtr.assign_copy Example.soleOwnerWithWeak.1 Example.soleOwner.2
      Example.soleOwner.2).2 = Example.soleOwner.2 ∧
    SharedPtr.UseCount (SharedPtr.assign_copy Example.soleOwnerWithWeak.1 Example.soleOwner.2
      Example.soleOwner.2).1 Example.soleOwner.2 = 1 ∧
    ((SharedPtr.assign_copy Example.soleOwnerWithWeak.1 Example.soleOwner.2
      Example.soleOwner.2).1.objs 0).destroyed = 1 ∧
    ((SharedPtr.dtor (SharedPtr.assign_copy Example.soleOwnerWithWeak.1 Example.soleOwner.2
      Example.soleOwner.2).1 Example.soleOwner.2).objs 0).destroyed = 2 := by
  decide

/-- C6, evaluated at `SharedPtr<T> a(new T); a = a;`: `a` is the sole owner (use count `1`)
of a live object in a live block; after the self-assignment the object has been destroyed
and the block deallocated, while `a` still holds that block and observer.  The move
assignment `a = std::move(a);` destroys the object as well, and its moved-from source, which
is `a` itself, is left empty. -/
theorem C6_self_assignment_of_sole_owner_destroys :
    SharedPtr.UseCount Example.soleOwner.1 Example.soleOwner.2 = 1 ∧
    Example.soleOwner.2 = ⟨some 0, some 0⟩ ∧
    (Example.soleOwner.1.objs 0).destroyed = 0 ∧
    (Example.soleOwner.1.blocks 0).deleted = 0 ∧
    (SharedPtr.assign_copy Example.soleOwner.1 Example.soleOwner.2 Example.soleOwner.2).2
      = ⟨some 0, some 0⟩ ∧
    ((SharedPtr.assign_copy Example.soleOwner.1 Example.soleOwner.2
      Example.soleOwner.2).1.objs 0).destroyed = 1 ∧
    ((SharedPtr.assign_copy Example.soleOwner.1 Example.soleOwner.2
      Example.soleOwner.2).1.blocks 0).deleted = 1 ∧
    ((SharedPtr.assign_move Example.soleOwner.1 Example.soleOwner.2
      Example.soleOwner.2).1.objs 0).destroyed = 1 ∧
    (SharedPtr.assign_move Example.soleOwner.1 Example.soleOwner.2
      Example.soleOwner.2).2.2 = ⟨none, none⟩ := by
  decide

/-- C7, evaluated at `SharedPtr<T> a(new T); a = a;` and at
`SharedPtr<T> a(new T); WeakPtr<T> w(a); a.Reset(); w = w;`: after the self-assignment the
pointer is non-empty and refers to block `0`, which has been deallocated, so it accounts
for no count of a live block. -/
theorem C7_self_assignment_leaves_dangling_pointer :
    (SharedPtr.assign_copy Example.soleOwner.1 Example.soleOwner.2
      Example.soleOwner.2).2.toBool = true ∧
    (SharedPtr.assign_copy Example.soleOwner.1 Example.soleOwner.2
      Example.soleOwner.2).2.block_ = some 0 ∧
    ((SharedPtr.assign_copy Example.soleOwner.1 Example.soleOwner.2
      Example.soleOwner.2).1.blocks 0).deleted = 1 ∧
    ((SharedPtr.Reset Example.soleOwnerWithWeak.1 Example.soleOwner.2).1.blocks 0).deleted
      = 0 ∧
    (WeakPtr.assign_copy (SharedPtr.Reset Example.soleOwnerWithWeak.1 Example.soleOwner.2).1
      Example.soleOwnerWithWeak.2 Example.soleOwnerWithWeak.2).2.block_ = some 0 ∧
    ((WeakPtr.assign_copy (SharedPtr.Reset Example.soleOwnerWithWeak.1 Example.soleOwner.2).1
      Example.soleOwnerWithWeak.2 Example.soleOwnerWithWeak.2).1.blocks 0).deleted = 1 := by
  decide

/-- C10, evaluated at `SharedPtr<T> a; a.Reset(new T);` for a type `T` deriving from
`EnableSharedFromThis<T>`: `a` owns the object (`Get()` is its address, use count `1`), but
the object's `weak_this_` is still empty, `WeakFromThis()` is expired and `SharedFromThis()`
throws `BadWeakPtr`; after `SharedPtr<T> a(new T);` the self-reference is installed and
`SharedFromThis()` returns a pointer. -/
theorem C10_reset_ptr_installs_no_self_reference :
    Example.resetToFresh.2.Get = some 0 ∧
    SharedPtr.UseCount Example.resetToFresh.1 Example.resetToFresh.2 = 1 ∧
    (Example.resetToFresh.1.objs 0).weak_this_ = ⟨none, none⟩ ∧
    WeakPtr.Expired (EnableSharedFromThis.WeakFromThis Example.resetToFresh.1 0).1
      (EnableSharedFromThis.WeakFromThis Example.resetToFresh.1 0).2 = true ∧
    (EnableSharedFromThis.SharedFromThis Example.resetToFresh.1 0).2
      = Except.error BadWeakPtr.mk ∧
    (Example.soleOwnerEsft.1.objs 0).weak_this_ = ⟨some 0, some 0⟩ ∧
    (EnableSharedFromThis.SharedFromThis Example.soleOwnerEsft.1 0).2
      = Except.ok Example.soleOwnerEsft.2 := by
  refine ⟨by decide, by decide, by decide, by decide, rfl, by decide, rfl⟩

/-- C2 at `SharedPtr<T> a(new T); WeakPtr<T> w(a);`: the hypotheses hold, and releasing
`a` and then `w` destroys the object in the first step and deallocates the block in the
second. -/
theorem C2_witness :
    (Example.soleOwnerWithWeak.1.blocks 0).strong_counter_ = 1 ∧
    (Example.soleOwnerWithWeak.1.blocks 0).weak_counter_ = 1 ∧
    ((BaseBlock.DecStrongCounter Example.soleOwnerWithWeak.1 0).objs 0).destroyed = 1 ∧
    ((BaseBlock.DecStrongCounter Example.soleOwnerWithWeak.1 0).blocks 0).deleted = 0 ∧
    ((WeakPtr.dtorAll (BaseBlock.DecStrongCounter Example.soleOwnerWithWeak.1 0)
      [Example.soleOwnerWithWeak.2]).blocks 0).deleted = 1 := by
  have key := C2_block_outlives_object_until_last_weak Example.soleOwnerWithWeak.1 0 0
    [Example.soleOwnerWithWeak.2] (by decide) (by decide) (by decide) (by decide) (by decide)
    (by decide)
  exact ⟨by decide, by decide, key.1, key.2.2.2.1, key.2.2.2.2.2.1⟩

/-- C5 at `SharedPtr<T> a(new T); WeakPtr<T> w(a);`: the hypotheses hold, `w` is not expired
while `a` lives and is expired once `a` is destroyed. -/
theorem C5_witness :
    (Example.soleOwnerWithWeak.1.blocks 0).strong_counter_ = [Example.soleOwner.2].length ∧
    WeakPtr.Expired Example.soleOwnerWithWeak.1 Example.soleOwnerWithWeak.2 = false ∧
    WeakPtr.Expired (SharedPtr.dtorAll Example.soleOwnerWithWeak.1 [Example.soleOwner.2])
      Example.soleOwnerWithWeak.2 = true := by
  have key := C5_expired_exactly_after_last_owner Example.soleOwnerWithWeak.1 0
    [Example.soleOwner.2] Example.soleOwnerWithWeak.2 (by decide) (by decide) (by decide)
    (by decide) (by decide) (by decide)
  exact ⟨by decide, key.1 0 (by decide), key.2.1⟩

theorem MakeShared_plain_result (h : Heap) :
    (MakeShared false h).2 = ⟨some h.nextBlock, some h.nextObj⟩ ∧
    (MakeShared false h).1.blocks h.nextBlock =
      ⟨BlockKind.object, 1, 0, some h.nextObj, 0⟩ ∧
    (MakeShared false h).1.objs h.nextObj = ⟨⟨none, none⟩, 0⟩ := by
  refine ⟨?_, ?_, ?_⟩ <;>
    simp [MakeShared, BlockObject.new, Heap.newObject, SharedPtr.ctor_block,
      BlockObject.GetObserver, Heap.setBlock, Heap.setObj]

theorem ctor_raw_plain_result (h : Heap) (ptr : Option Addr) :
    (SharedPtr.ctor_raw false h ptr).2 = ⟨some h.nextBlock, ptr⟩ ∧
    (SharedPtr.ctor_raw false h ptr).1.blocks h.nextBlock =
      ⟨BlockKind.pointer, 1, 0, ptr, 0⟩ ∧
    (∀ x, x ≠ h.nextBlock → (SharedPtr.ctor_raw false h ptr).1.blocks x = h.blocks x) ∧
    (SharedPtr.ctor_raw false h ptr).1.objs = h.objs := by
  refine ⟨?_, ?_, ?_, ?_⟩
  · simp [SharedPtr.ctor_raw, BlockPointer.new]
  · simp [SharedPtr.ctor_raw, BlockPointer.new, Heap.setBlock]
  · intro x hx
    simp [SharedPtr.ctor_raw, BlockPointer.new, Heap.setBlock, hx]
  · simp [SharedPtr.ctor_raw, BlockPointer.new, Heap.setBlock]

theorem ctor_raw_esft_fresh_result (h : Heap) :
    (SharedPtr.ctor_raw true h.newObject.1 (some h.newObject.2)).2
      = ⟨some h.nextBlock, some h.nextObj⟩ ∧
    (SharedPtr.ctor_raw true h.newObject.1 (some h.newObject.2)).1.blocks h.nextBlock =
      ⟨BlockKind.pointer, 1, 1, some h.nextObj, 0⟩ ∧
    (SharedPtr.ctor_raw true h.newObject.1 (some h.newObject.2)).1.objs h.nextObj
      = ⟨⟨some h.nextBlock, some h.nextObj⟩, 0⟩ := by
  refine ⟨?_, ?_, ?_⟩ <;>
    simp [SharedPtr.ctor_raw, BlockPointer.new, Heap.newObject,
      SharedPtr.InitWeakThis, WeakPtr.ctor_shared, WeakPtr.assign_move, WeakPtr.dtor,
      BaseBlock.IncWeakCounter_eq, BlockPointer.IncWeakCounter,
      Heap.setBlock, Heap.setObj]

/-- The last owner of a block whose only weak count is the self-reference of its object
releases it: the object is destroyed and the block deallocated, once each. -/
theorem release_last_owner_of_self_referencing (g : Heap) (b o : Addr) (k : BlockKind)
    (hb : g.blocks b = ⟨k, 1, 1, some o, 0⟩)
    (ho : g.objs o = ⟨⟨some b, some o⟩, 0⟩) :
    (BaseBlock.DecStrongCounter g b).blocks b = ⟨k, 0, 0, some o, 1⟩ ∧
    ((BaseBlock.DecStrongCounter g b).objs o).destroyed = 1 := by
  have hsr : g.selfRefs b = 1 := by
    simp [Heap.selfRefs, Heap.selfRefsOf, hb, ho]
  refine ⟨?_, ?_⟩
  · rw [DecStrong_last_block g b (by rw [hb]) (by rw [hsr, hb]), hsr, hb]
    simp
  · rw [DecStrong_objs]
    simp [hb, ho, decr]

/-- C11.  Right after `MakeShared<T>(args)`, and right after `SharedPtr<T>(new T)`, for a
type `T` with the self-reference capability: the use count is `1`, the weak count of the
block is `1` and that one weak count is the object's own `weak_this_`; destroying the single
external `SharedPtr` runs the object's destructor (once) and deallocates the block. -/
theorem C11_self_reference_is_not_an_owner (h : Heap) :
    SharedPtr.UseCount (MakeShared true h).1 (MakeShared true h).2 = 1 ∧
    BaseBlock.GetWeakCounter (MakeShared true h).1 h.nextBlock = 1 ∧
    (MakeShared true h).2.block_ = some h.nextBlock ∧
    ((MakeShared true h).1.objs h.nextObj).weak_this_ = ⟨some h.nextBlock, some h.nextObj⟩ ∧
    ((SharedPtr.dtor (MakeShared true h).1 (MakeShared true h).2).objs h.nextObj).destroyed
      = 1 ∧
    ((SharedPtr.dtor (MakeShared true h).1 (MakeShared true h).2).blocks h.nextBlock).deleted
      = 1 ∧
    SharedPtr.UseCount (SharedPtr.ctor_raw true h.newObject.1 (some h.newObject.2)).1
      (SharedPtr.ctor_raw true h.newObject.1 (some h.newObject.2)).2 = 1 ∧
    BaseBlock.GetWeakCounter (SharedPtr.ctor_raw true h.newObject.1 (some h.newObject.2)).1
      h.nextBlock = 1 ∧
    (SharedPtr.ctor_raw true h.newObject.1 (some h.newObject.2)).2.block_
      = some h.nextBlock ∧
    ((SharedPtr.ctor_raw true h.newObject.1 (some h.newObject.2)).1.objs h.nextObj).weak_this_
      = ⟨some h.nextBlock, some h.nextObj⟩ ∧
    ((SharedPtr.dtor (SharedPtr.ctor_raw true h.newObject.1 (some h.newObject.2)).1
      (SharedPtr.ctor_raw true h.newObject.1 (some h.newObject.2)).2).objs
        h.nextObj).destroyed = 1 ∧
    ((SharedPtr.dtor (SharedPtr.ctor_raw true h.newObject.1 (some h.newObject.2)).1
      (SharedPtr.ctor_raw true h.newObject.1 (some h.newObject.2)).2).blocks
        h.nextBlock).deleted = 1 := by
  obtain ⟨mp, mb, mo⟩ := MakeShared_esft_result h
  obtain ⟨rp, rb, ro⟩ := ctor_raw_esft_fresh_result h
  have mpb : (MakeShared true h).2.block_ = some h.nextBlock := by rw [mp]
  have rpb : (SharedPtr.ctor_raw true h.newObject.1 (some h.newObject.2)).2.block_
      = some h.nextBlock := by rw [rp]
  obtain ⟨m1, m2⟩ := release_last_owner_of_self_referencing _ _ _ _ mb mo
  obtain ⟨r1, r2⟩ := release_last_owner_of_self_referencing _ _ _ _ rb ro
  have hgw : ∀ (g : Heap) (x : Addr),
      BaseBlock.GetWeakCounter g x = (g.blocks x).weak_counter_ := by
    intro g x
    unfold BaseBlock.GetWeakCounter
    cases (g.blocks x).kind <;> rfl
  refine ⟨?_, ?_, mpb, ?_, ?_, ?_, ?_, ?_, rpb, ?_, ?_, ?_⟩
  · simp [SharedPtr.UseCount, mpb, BaseBlock.GetStrongCounter_eq, mb]
  · rw [hgw, mb]
  · rw [mo]
  · rw [SharedPtr_dtor_of_block _ _ _ mpb]; exact m2
  · rw [SharedPtr_dtor_of_block _ _ _ mpb, m1]
  · simp [SharedPtr.UseCount, rpb, BaseBlock.GetStrongCounter_eq, rb]
  · rw [hgw, rb]
  · rw [ro]
  · rw [SharedPtr_dtor_of_block _ _ _ rpb]; exact r2
  · rw [SharedPtr_dtor_of_block _ _ _ rpb, r1]

theorem GetWeakCounter_eq (g : Heap) (x : Addr) :
    BaseBlock.GetWeakCounter g x = (g.blocks x).weak_counter_ := by
  unfold BaseBlock.GetWeakCounter
  cases (g.blocks x).kind <;> rfl

theorem IncWeak_blocks_self (h : Heap) (b : Addr) :
    (BaseBlock.IncWeakCounter h b).blocks b =
      { h.blocks b with weak_counter_ := incr (h.blocks b).weak_counter_ } := by
  rw [BaseBlock.IncWeakCounter_eq]
  simp [BlockPointer.IncWeakCounter]

theorem IncWeak_blocks_other (h : Heap) (b x : Addr) (hx : x ≠ b) :
    (BaseBlock.IncWeakCounter h b).blocks x = h.blocks x := by
  rw [BaseBlock.IncWeakCounter_eq]
  simp [BlockPointer.IncWeakCounter, Heap.setBlock_blocks_other, hx]

@[simp] theorem IncWeak_objs (h : Heap) (b : Addr) :
    (BaseBlock.IncWeakCounter h b).objs = h.objs := by
  rw [BaseBlock.IncWeakCounter_eq]
  rfl

/-- C14 fails where the counter wraps: copy construction from a pointer whose block has
strong count `2^64 - 1` returns that pointer, and the strong count, hence the use count of
both, is `0` afterwards, not one greater. -/
theorem C14_copy_wraps_at_size_max :
    SharedPtr.UseCount Example.strongAtMax ⟨some 0, some 0⟩ = 2 ^ 64 - 1 ∧
    (SharedPtr.ctor_copy Example.strongAtMax ⟨some 0, some 0⟩).2 = ⟨some 0, some 0⟩ ∧
    ((SharedPtr.ctor_copy Example.strongAtMax ⟨some 0, some 0⟩).1.blocks 0).strong_counter_
      = 0 ∧
    SharedPtr.UseCount (SharedPtr.ctor_copy Example.strongAtMax ⟨some 0, some 0⟩).1
      (SharedPtr.ctor_copy Example.strongAtMax ⟨some 0, some 0⟩).2 = 0 := by
  decide

/-- C14, amended.  Copy construction `SharedPtr(const SharedPtr& other)` (also the converting
form) returns the block and observer of `other`, which is only read.  When `other` has a
block, exactly the strong count of that block changes, by the `size_t` pre-increment: the use
count grows by one unless it was `2^64 - 1`, when it becomes `0`; its weak count, its other
fields, every other block and every object stay as they were.  When `other` has no block the
result has none either (it converts to `false`, use count `0`) and the heap is unchanged. -/
theorem C14_copy_construction (h : Heap) (other : SharedPtr) :
    (SharedPtr.ctor_copy h other).2 = other ∧
    (∀ b, other.block_ = some b →
      (SharedPtr.ctor_copy h other).1.blocks b =
        { h.blocks b with strong_counter_ := incr (h.blocks b).strong_counter_ } ∧
      (SharedPtr.UseCount h other ≠ SIZE_MAX →
        SharedPtr.UseCount (SharedPtr.ctor_copy h other).1 (SharedPtr.ctor_copy h other).2
          = SharedPtr.UseCount h other + 1) ∧
      (SharedPtr.UseCount h other = SIZE_MAX →
        SharedPtr.UseCount (SharedPtr.ctor_copy h other).1 (SharedPtr.ctor_copy h other).2
          = 0) ∧
      BaseBlock.GetWeakCounter (SharedPtr.ctor_copy h other).1 b
        = BaseBlock.GetWeakCounter h b ∧
      (∀ x, x ≠ b → (SharedPtr.ctor_copy h other).1.blocks x = h.blocks x) ∧
      (SharedPtr.ctor_copy h other).1.objs = h.objs) ∧
    (other.block_ = none →
      (SharedPtr.ctor_copy h other).1 = h ∧
      (SharedPtr.ctor_copy h other).2.toBool = false ∧
      SharedPtr.UseCount (SharedPtr.ctor_copy h other).1 (SharedPtr.ctor_copy h other).2
        = 0) := by
  have hres : (SharedPtr.ctor_copy h other).2 = other := by
    unfold SharedPtr.ctor_copy
    cases other with
    | mk b o => cases b <;> rfl
  refine ⟨hres, ?_, ?_⟩
  · intro b hb
    have hheap : (SharedPtr.ctor_copy h other).1 = BaseBlock.IncStrongCounter h b := by
      unfold SharedPtr.ctor_copy
      simp [hb]
    rw [hres, hheap]
    refine ⟨IncStrong_blocks_self h b, ?_, ?_, ?_, fun x hx => IncStrong_blocks_other h b x hx,
      IncStrong_objs h b⟩
    · intro hne
      simp only [SharedPtr.UseCount, hb, BaseBlock.GetStrongCounter_eq,
        IncStrong_blocks_self] at hne ⊢
      exact incr_of_ne_max _ hne
    · intro hmax
      simp only [SharedPtr.UseCount, hb, BaseBlock.GetStrongCounter_eq,
        IncStrong_blocks_self] at hmax ⊢
      rw [hmax, incr_max]
    · simp [GetWeakCounter_eq, IncStrong_blocks_self]
  · intro hb
    have hheap : (SharedPtr.ctor_copy h other).1 = h := by
      unfold SharedPtr.ctor_copy
      simp [hb]
    rw [hres, hheap]
    exact ⟨rfl, by simp [SharedPtr.toBool, hb], by simp [SharedPtr.UseCount, hb]⟩

/-- C15.  Move construction `SharedPtr(SharedPtr<Y>&& other)` gives the new pointer the
block and observer of `other` and leaves `other` empty: no block, `Get()` null, converting
to `false`, use count `0`.  It calls no member of any control block, so on every heap the
new pointer reads the use count the source read before. -/
theorem C15_move_construction (other : SharedPtr) :
    (SharedPtr.ctor_move other).1 = other ∧
    (SharedPtr.ctor_move other).2 = ⟨none, none⟩ ∧
    (SharedPtr.ctor_move other).2.Get = none ∧
    (SharedPtr.ctor_move other).2.toBool = false ∧
    (∀ h : Heap, SharedPtr.UseCount h (SharedPtr.ctor_move other).2 = 0) ∧
    (∀ h : Heap, SharedPtr.UseCount h (SharedPtr.ctor_move other).1
      = SharedPtr.UseCount h other) := by
  refine ⟨rfl, rfl, rfl, rfl, fun h => rfl, fun h => rfl⟩

/-- C17.  `operator==` on two shared pointers is true exactly when their observers are the
same pointer, whatever their blocks: an alias with another observer differs from its source
although both have the source's block, two pointers with one observer are equal whatever
their blocks, and two empty pointers are equal. -/
theorem C17_equality_compares_observers (left right : SharedPtr) :
    (SharedPtr.eq left right = true ↔ left.Get = right.Get) ∧
    (∀ (h : Heap) (p : SharedPtr) (m : Option Addr), m ≠ p.observer_ →
      (SharedPtr.ctor_alias h p m).2.block_ = p.block_ ∧
      SharedPtr.eq (SharedPtr.ctor_alias h p m).2 p = false) ∧
    (∀ (b c : Option Addr) (m : Option Addr), SharedPtr.eq ⟨b, m⟩ ⟨c, m⟩ = true) ∧
    SharedPtr.eq SharedPtr.ctor_default SharedPtr.ctor_default = true := by
  refine ⟨?_, ?_, ?_, ?_⟩
  · simp [SharedPtr.eq]
  · intro h p m hm
    have hres : (SharedPtr.ctor_alias h p m).2 = ⟨p.block_, m⟩ := by
      unfold SharedPtr.ctor_alias
      cases p with
      | mk b o => cases b <;> rfl
    rw [hres]
    exact ⟨rfl, by simpa [SharedPtr.eq, SharedPtr.Get] using hm⟩
  · intro b c m
    simp [SharedPtr.eq, SharedPtr.Get]
  · simp [SharedPtr.eq]

/-- C18 fails where the counter wraps: demotion of, and weak copy from, a pointer whose
block has weak count `2^64 - 1` return the block and observer of the source, and the weak
count afterwards is `0`, not one greater. -/
theorem C18_weak_construction_wraps_at_size_max :
    (Example.weakAtMax.blocks 0).weak_counter_ = 2 ^ 64 - 1 ∧
    (WeakPtr.ctor_shared Example.weakAtMax ⟨some 0, some 0⟩).2 = ⟨some 0, some 0⟩ ∧
    ((WeakPtr.ctor_shared Example.weakAtMax ⟨some 0, some 0⟩).1.blocks 0).weak_counter_ = 0 ∧
    ((WeakPtr.ctor_copy Example.weakAtMax ⟨some 0, some 0⟩).1.blocks 0).weak_counter_ = 0 := by
  decide

/-- C18, amended.  Demotion `WeakPtr(const SharedPtr<Y>&)` and copy construction
`WeakPtr(const WeakPtr&)` return the block and observer of their source; when the source has
a block, exactly the weak count of that block changes, by the `size_t` pre-increment (one
greater unless it was `2^64 - 1`, when it becomes `0`), the strong count and everything else
staying as it was.  Move construction returns the source's block and observer, leaves the
source empty and touches no heap.  `UseCount()` of a weak pointer is the strong count of its
block, and `0` when it has none. -/
theorem C18_weak_construction (h : Heap) (s : SharedPtr) (w : WeakPtr) :
    (WeakPtr.ctor_shared h s).2 = ⟨s.block_, s.observer_⟩ ∧
    (∀ b, s.block_ = some b →
      (WeakPtr.ctor_shared h s).1.blocks b =
        { h.blocks b with weak_counter_ := incr (h.blocks b).weak_counter_ } ∧
      ((h.blocks b).weak_counter_ ≠ SIZE_MAX →
        ((WeakPtr.ctor_shared h s).1.blocks b).weak_counter_
          = (h.blocks b).weak_counter_ + 1) ∧
      ((h.blocks b).weak_counter_ = SIZE_MAX →
        ((WeakPtr.ctor_shared h s).1.blocks b).weak_counter_ = 0) ∧
      BaseBlock.GetStrongCounter (WeakPtr.ctor_shared h s).1 b
        = BaseBlock.GetStrongCounter h b ∧
      (∀ x, x ≠ b → (WeakPtr.ctor_shared h s).1.blocks x = h.blocks x) ∧
      (WeakPtr.ctor_shared h s).1.objs = h.objs) ∧
    (WeakPtr.ctor_copy h w).2 = w ∧
    (∀ b, w.block_ = some b →
      (WeakPtr.ctor_copy h w).1.blocks b =
        { h.blocks b with weak_counter_ := incr (h.blocks b).weak_counter_ } ∧
      ((h.blocks b).weak_counter_ ≠ SIZE_MAX →
        ((WeakPtr.ctor_copy h w).1.blocks b).weak_counter_
          = (h.blocks b).weak_counter_ + 1) ∧
      ((h.blocks b).weak_counter_ = SIZE_MAX →
        ((WeakPtr.ctor_copy h w).1.blocks b).weak_counter_ = 0) ∧
      BaseBlock.GetStrongCounter (WeakPtr.ctor_copy h w).1 b
        = BaseBlock.GetStrongCounter h b ∧
      (∀ x, x ≠ b → (WeakPtr.ctor_copy h w).1.blocks x = h.blocks x) ∧
      (WeakPtr.ctor_copy h w).1.objs = h.objs) ∧
    (WeakPtr.ctor_move w).1 = w ∧
    (WeakPtr.ctor_move w).2 = ⟨none, none⟩ ∧
    (∀ b, w.block_ = some b → WeakPtr.UseCount h w = (h.blocks b).strong_counter_) ∧
    (w.block_ = none → WeakPtr.UseCount h w = 0) := by
  have hsres : (WeakPtr.ctor_shared h s).2 = ⟨s.block_, s.observer_⟩ := by
    unfold WeakPtr.ctor_shared
    cases s with
    | mk b o => cases b <;> rfl
  have hcres : (WeakPtr.ctor_copy h w).2 = w := by
    unfold WeakPtr.ctor_copy
    cases w with
    | mk b o => cases b <;> rfl
  have hinc : ∀ b, (BaseBlock.IncWeakCounter h b).blocks b =
        { h.blocks b with weak_counter_ := incr (h.blocks b).weak_counter_ } ∧
      ((h.blocks b).weak_counter_ ≠ SIZE_MAX →
        ((BaseBlock.IncWeakCounter h b).blocks b).weak_counter_
          = (h.blocks b).weak_counter_ + 1) ∧
      ((h.blocks b).weak_counter_ = SIZE_MAX →
        ((BaseBlock.IncWeakCounter h b).blocks b).weak_counter_ = 0) ∧
      BaseBlock.GetStrongCounter (BaseBlock.IncWeakCounter h b) b
        = BaseBlock.GetStrongCounter h b ∧
      (∀ x, x ≠ b → (BaseBlock.IncWeakCounter h b).blocks x = h.blocks x) ∧
      (BaseBlock.IncWeakCounter h b).objs = h.objs := by
    intro b
    refine ⟨IncWeak_blocks_self h b, ?_, ?_, ?_, fun x hx => IncWeak_blocks_other h b x hx,
      IncWeak_objs h b⟩
    · intro hne
      simp only [IncWeak_blocks_self]
      exact incr_of_ne_max _ hne
    · intro hmax
      simp only [IncWeak_blocks_self]
      rw [hmax, incr_max]
    · simp [BaseBlock.GetStrongCounter_eq, IncWeak_blocks_self]
  refine ⟨hsres, ?_, hcres, ?_, rfl, rfl, ?_, ?_⟩
  · intro b hb
    have hheap : (WeakPtr.ctor_shared h s).1 = BaseBlock.IncWeakCounter h b := by
      unfold WeakPtr.ctor_shared
      simp [hb]
    rw [hheap]
    exact hinc b
  · intro b hb
    have hheap : (WeakPtr.ctor_copy h w).1 = BaseBlock.IncWeakCounter h b := by
      unfold WeakPtr.ctor_copy
      simp [hb]
    rw [hheap]
    exact hinc b
  · intro b hb
    simp [WeakPtr.UseCount, hb, BaseBlock.GetStrongCounter_eq]
  · intro hb
    simp [WeakPtr.UseCount, hb]

/-- C19.  For a type without the self-reference capability: `SharedPtr<T>(p)` has use
count `1` and `Get() == p`, and its block is a fresh `BlockPointer` holding `p` with weak count
`0`; `MakeShared<T>(args)` has use count `1`, its block is a fresh `BlockObject` with weak
count `0`, and `Get()` is the address of the object constructed in that block's storage.
Both block constructors start with strong count `1` and weak count `0`. -/
theorem C19_blocks_start_with_one_strong_no_weak (h : Heap) (p : Option Addr) :
    SharedPtr.UseCount (SharedPtr.ctor_raw false h p).1 (SharedPtr.ctor_raw false h p).2 = 1 ∧
    (SharedPtr.ctor_raw false h p).2.Get = p ∧
    (SharedPtr.ctor_raw false h p).2.block_ = some h.nextBlock ∧
    BaseBlock.GetWeakCounter (SharedPtr.ctor_raw false h p).1 h.nextBlock = 0 ∧
    (SharedPtr.ctor_raw false h p).1.blocks h.nextBlock = ⟨BlockKind.pointer, 1, 0, p, 0⟩ ∧
    SharedPtr.UseCount (MakeShared false h).1 (MakeShared false h).2 = 1 ∧
    (MakeShared false h).2.block_ = some h.nextBlock ∧
    BaseBlock.GetWeakCounter (MakeShared false h).1 h.nextBlock = 0 ∧
    (MakeShared false h).1.blocks h.nextBlock
      = ⟨BlockKind.object, 1, 0, some h.nextObj, 0⟩ ∧
    (MakeShared false h).2.Get = BlockObject.GetObserver (MakeShared false h).1 h.nextBlock ∧
    (MakeShared false h).2.Get = some h.nextObj ∧
    ((MakeShared false h).1.objs h.nextObj).destroyed = 0 ∧
    (BlockPointer.new h p).1.blocks (BlockPointer.new h p).2
      = ⟨BlockKind.pointer, 1, 0, p, 0⟩ ∧
    (BlockObject.new h).1.blocks (BlockObject.new h).2
      = ⟨BlockKind.object, 1, 0, some h.nextObj, 0⟩ := by
  obtain ⟨rp, rb, _, _⟩ := ctor_raw_plain_result h p
  obtain ⟨mp, mb, mo⟩ := MakeShared_plain_result h
  refine ⟨?_, ?_, ?_, ?_, rb, ?_, ?_, ?_, mb, ?_, ?_, ?_, ?_, ?_⟩
  · simp [SharedPtr.UseCount, rp, BaseBlock.GetStrongCounter_eq, rb]
  · rw [rp]; rfl
  · rw [rp]
  · rw [GetWeakCounter_eq, rb]
  · simp [SharedPtr.UseCount, mp, BaseBlock.GetStrongCounter_eq, mb]
  · rw [mp]
  · rw [GetWeakCounter_eq, mb]
  · rw [mp]; simp [SharedPtr.Get, BlockObject.GetObserver, mb]
  · rw [mp]; rfl
  · rw [mo]
  · simp [BlockPointer.new, Heap.setBlock]
  · simp [BlockObject.new, Heap.newObject, Heap.setBlock]

/-! ## The state invariant, the scenario, `Reset`, and destruction under an extra weak count -/

/-- C12 fails for the aliasing constructor: applied to an empty source and the non-null
pointer `7` it produces a `SharedPtr` whose block is null and whose `Get()` is `7`. -/
theorem C12_alias_of_empty_has_observer_without_block :
    Example.aliasOfEmpty.2.block_ = none ∧
    Example.aliasOfEmpty.2.Get = some 7 ∧
    ¬ Example.aliasOfEmpty.2.NullBlockNullObserver := by
  refine ⟨rfl, rfl, ?_⟩
  intro hinv
  have h7 := hinv rfl
  exact absurd h7 (by decide)

/-- C12, amended.  A null block implies a null observer for the result of the default,
raw-pointer and block constructors, of `MakeShared`, of promotion, `Lock` and
`SharedFromThis` (when they return a pointer), and of `Reset(ptr)`; for the moved-from
source of a move; and, when the pointers read satisfy it, for the results of copy and move
construction, copy and move assignment, `Reset()` and `Swap`.  The aliasing constructor
yields it exactly when its source has a block or the pointer given is null. -/
theorem C12_null_block_null_observer_unless_alias_of_empty (h : Heap) (p q : SharedPtr)
    (w : WeakPtr) (ptr : Option Addr) (esft : Bool) (blk o : Addr) :
    SharedPtr.ctor_default.NullBlockNullObserver ∧
    (SharedPtr.ctor_raw esft h ptr).2.NullBlockNullObserver ∧
    (p.NullBlockNullObserver → (SharedPtr.ctor_copy h p).2.NullBlockNullObserver) ∧
    (p.NullBlockNullObserver → (SharedPtr.ctor_move p).1.NullBlockNullObserver) ∧
    (SharedPtr.ctor_move p).2.NullBlockNullObserver ∧
    (SharedPtr.ctor_block esft h blk).2.NullBlockNullObserver ∧
    ((SharedPtr.ctor_alias h p ptr).2.NullBlockNullObserver ↔
      (p.block_ ≠ none ∨ ptr = none)) ∧
    (∀ r, (SharedPtr.ctor_weak h w).2 = Except.ok r → r.NullBlockNullObserver) ∧
    (q.NullBlockNullObserver → (SharedPtr.assign_copy h p q).2.NullBlockNullObserver) ∧
    (q.NullBlockNullObserver → (SharedPtr.assign_move h p q).2.1.NullBlockNullObserver) ∧
    (SharedPtr.assign_move h p q).2.2.NullBlockNullObserver ∧
    (p.NullBlockNullObserver → (SharedPtr.Reset h p).2.NullBlockNullObserver) ∧
    (SharedPtr.Reset_ptr h p ptr).2.NullBlockNullObserver ∧
    (p.NullBlockNullObserver → q.NullBlockNullObserver →
      (SharedPtr.Swap p q).1.NullBlockNullObserver ∧
      (SharedPtr.Swap p q).2.NullBlockNullObserver) ∧
    (MakeShared esft h).2.NullBlockNullObserver ∧
    (∀ r, (WeakPtr.Lock h w).2 = Except.ok r → r.NullBlockNullObserver) ∧
    (∀ r, (EnableSharedFromThis.SharedFromThis h o).2 = Except.ok r →
      r.NullBlockNullObserver) := by
  have hweak : ∀ (g : Heap) (v : WeakPtr) (r : SharedPtr),
      (SharedPtr.ctor_weak g v).2 = Except.ok r → r.NullBlockNullObserver := by
    intro g v r hr
    cases he : WeakPtr.Expired g v with
    | true =>
      rw [ctor_weak_expired g v he] at hr
      cases hr
    | false =>
      obtain ⟨b, hb, hs⟩ := (Expired_false_iff g v).mp he
      rw [ctor_weak_live g v b hb hs] at hr
      simp only [Except.ok.injEq] at hr
      intro hnone
      rw [← hr] at hnone
      simp [hb] at hnone
  refine ⟨?_, ?_, ?_, ?_, ?_, ?_, ?_, hweak h w, ?_, ?_, ?_, ?_, ?_, ?_, ?_, ?_, ?_⟩
  · intro _; rfl
  · intro hnone
    cases esft <;> simp [SharedPtr.ctor_raw, BlockPointer.new] at hnone
  · intro hp
    have hres : (SharedPtr.ctor_copy h p).2 = p := by
      unfold SharedPtr.ctor_copy
      cases p with
      | mk b o => cases b <;> rfl
    rw [hres]; exact hp
  · intro hp; exact hp
  · intro _; rfl
  · intro hnone
    cases esft <;> simp [SharedPtr.ctor_block] at hnone
  · have hres : (SharedPtr.ctor_alias h p ptr).2 = ⟨p.block_, ptr⟩ := by
      unfold SharedPtr.ctor_alias
      cases p with
      | mk b o => cases b <;> rfl
    rw [hres]
    unfold SharedPtr.NullBlockNullObserver
    constructor
    · intro hinv
      by_cases hb : p.block_ = none
      · exact Or.inr (hinv hb)
      · exact Or.inl hb
    · intro hor hb
      cases hor with
      | inl hne => exact absurd hb hne
      | inr hp => exact hp
  · intro hq
    have hres : (SharedPtr.assign_copy h p q).2 = q := by
      unfold SharedPtr.assign_copy
      cases q with
      | mk b o => cases b <;> rfl
    rw [hres]; exact hq
  · intro hq; exact hq
  · intro _; rfl
  · intro hp
    unfold SharedPtr.Reset
    cases hb : p.block_ with
    | none => simpa [hb] using hp
    | some b => intro _; rfl
  · intro hnone
    simp [SharedPtr.Reset_ptr, BlockPointer.new] at hnone
  · intro hp hq
    exact ⟨hq, hp⟩
  · intro hnone
    cases esft <;> simp [MakeShared, SharedPtr.ctor_block] at hnone
  · intro r hr
    cases he : WeakPtr.Expired h w with
    | true =>
      have hl : WeakPtr.Lock h w = (h, Except.ok SharedPtr.ctor_default) := by
        unfold WeakPtr.Lock
        simp [he]
      rw [hl] at hr
      simp only [Except.ok.injEq] at hr
      rw [← hr]
      intro _; rfl
    | false =>
      have hl : WeakPtr.Lock h w = SharedPtr.ctor_weak h w := by
        unfold WeakPtr.Lock
        simp [he]
      rw [hl] at hr
      exact hweak h w r hr
  · intro r hr
    exact hweak h _ r hr

theorem MakeShared_result (esft : Bool) (h : Heap) :
    (MakeShared esft h).2 = ⟨some h.nextBlock, some h.nextObj⟩ ∧
    (MakeShared esft h).1.blocks h.nextBlock =
      ⟨BlockKind.object, 1, if esft then 1 else 0, some h.nextObj, 0⟩ ∧
    (MakeShared esft h).1.objs h.nextObj =
      ⟨if esft then ⟨some h.nextBlock, some h.nextObj⟩ else ⟨none, none⟩, 0⟩ := by
  cases esft
  · simpa using MakeShared_plain_result h
  · simpa using MakeShared_esft_result h

/-- C13.  The scenario, from any heap and for a `Widget` with or without the self-reference
capability: after `sp1 = MakeShared<Widget>(42)`, `sp1.UseCount()` is `1`; after `sp2 = sp1`
both use counts are `2`; after `wp = sp1`, `wp.UseCount()` is `2` and `wp.Expired()` is
false; after `sp1.Reset(); sp2.Reset();` both are empty, `wp.Expired()` is true and
`wp.Lock()` returns the empty `SharedPtr`, the widget having been destroyed once. -/
theorem C13_scenario (esft : Bool) (h : Heap) :
    SharedPtr.UseCount (Scenario.makeSp1 esft h).1 (Scenario.makeSp1 esft h).2 = 1 ∧
    SharedPtr.UseCount (Scenario.copySp2 esft h).1 (Scenario.makeSp1 esft h).2 = 2 ∧
    SharedPtr.UseCount (Scenario.copySp2 esft h).1 (Scenario.copySp2 esft h).2 = 2 ∧
    WeakPtr.UseCount (Scenario.demoteWp esft h).1 (Scenario.demoteWp esft h).2 = 2 ∧
    WeakPtr.Expired (Scenario.demoteWp esft h).1 (Scenario.demoteWp esft h).2 = false ∧
    (Scenario.resetSp1 esft h).2 = ⟨none, none⟩ ∧
    (Scenario.resetSp2 esft h).2 = ⟨none, none⟩ ∧
    WeakPtr.Expired (Scenario.resetSp2 esft h).1 (Scenario.demoteWp esft h).2 = true ∧
    WeakPtr.Lock (Scenario.resetSp2 esft h).1 (Scenario.demoteWp esft h).2
      = ((Scenario.resetSp2 esft h).1, Except.ok ⟨none, none⟩) ∧
    ((Scenario.resetSp2 esft h).1.objs h.nextObj).destroyed = 1 := by
  obtain ⟨mp, mb, mo⟩ := MakeShared_result esft h
  have hpb : (MakeShared esft h).2.block_ = some h.nextBlock := by rw [mp]
  -- step 2
  have hc2 : (Scenario.copySp2 esft h).2 = (MakeShared esft h).2 := by
    unfold Scenario.copySp2 Scenario.makeSp1 SharedPtr.ctor_copy
    rw [mp]
  have hc1 : (Scenario.copySp2 esft h).1
      = BaseBlock.IncStrongCounter (MakeShared esft h).1 h.nextBlock := by
    unfold Scenario.copySp2 Scenario.makeSp1 SharedPtr.ctor_copy
    simp [hpb]
  have hcb : (Scenario.copySp2 esft h).1.blocks h.nextBlock =
      ⟨BlockKind.object, 2, if esft then 1 else 0, some h.nextObj, 0⟩ := by
    rw [hc1, IncStrong_blocks_self, mb]
    simp
  have hco : (Scenario.copySp2 esft h).1.objs = (MakeShared esft h).1.objs := by
    rw [hc1, IncStrong_objs]
  -- step 3
  have hw2 : (Scenario.demoteWp esft h).2 = ⟨some h.nextBlock, some h.nextObj⟩ := by
    unfold Scenario.demoteWp Scenario.makeSp1 WeakPtr.ctor_shared
    rw [mp]
  have hw1 : (Scenario.demoteWp esft h).1
      = BaseBlock.IncWeakCounter (Scenario.copySp2 esft h).1 h.nextBlock := by
    unfold Scenario.demoteWp Scenario.makeSp1 WeakPtr.ctor_shared
    simp [hpb]
  have hwb : (Scenario.demoteWp esft h).1.blocks h.nextBlock =
      ⟨BlockKind.object, 2, (if esft then 1 else 0) + 1, some h.nextObj, 0⟩ := by
    rw [hw1, IncWeak_blocks_self, hcb]
    cases esft <;> simp
  have hwo : (Scenario.demoteWp esft h).1.objs = (MakeShared esft h).1.objs := by
    rw [hw1, IncWeak_objs, hco]
  -- step 4
  have hr1p : (Scenario.resetSp1 esft h).2 = ⟨none, none⟩ := by
    unfold Scenario.resetSp1 Scenario.makeSp1 SharedPtr.Reset
    simp [hpb]
  have hr1 : (Scenario.resetSp1 esft h).1
      = BaseBlock.DecStrongCounter (Scenario.demoteWp esft h).1 h.nextBlock := by
    unfold Scenario.resetSp1 Scenario.makeSp1 SharedPtr.Reset
    simp [hpb]
  have hr1' : (Scenario.resetSp1 esft h).1 = (Scenario.demoteWp esft h).1.setBlock h.nextBlock
      ⟨BlockKind.object, 1, (if esft then 1 else 0) + 1, some h.nextObj, 0⟩ := by
    rw [hr1, DecStrong_not_last _ _ (by rw [hwb]; simp [decr]), hwb]
    simp [decr]
  have hr1b : (Scenario.resetSp1 esft h).1.blocks h.nextBlock =
      ⟨BlockKind.object, 1, (if esft then 1 else 0) + 1, some h.nextObj, 0⟩ := by
    rw [hr1']; simp
  have hr1o : (Scenario.resetSp1 esft h).1.objs = (MakeShared esft h).1.objs := by
    rw [hr1', Heap.setBlock_objs, hwo]
  -- step 5
  have hr2p : (Scenario.resetSp2 esft h).2 = ⟨none, none⟩ := by
    unfold Scenario.resetSp2 SharedPtr.Reset
    simp [hc2, hpb]
  have hr2 : (Scenario.resetSp2 esft h).1
      = BaseBlock.DecStrongCounter (Scenario.resetSp1 esft h).1 h.nextBlock := by
    unfold Scenario.resetSp2 SharedPtr.Reset
    simp [hc2, hpb]
  have hsr : (Scenario.resetSp1 esft h).1.selfRefs h.nextBlock = if esft then 1 else 0 := by
    unfold Heap.selfRefs Heap.selfRefsOf
    rw [hr1b, hr1o]
    simp only [mo]
    cases esft <;> simp
  have hr2b : (Scenario.resetSp2 esft h).1.blocks h.nextBlock =
      ⟨BlockKind.object, 0, 1, some h.nextObj, 0⟩ := by
    rw [hr2, DecStrong_last_block _ _ (by rw [hr1b]) (by rw [hsr, hr1b]; simp), hsr, hr1b]
    simp
  have hexp : WeakPtr.Expired (Scenario.resetSp2 esft h).1 (Scenario.demoteWp esft h).2
      = true :=
    (Expired_iff _ _).mpr (Or.inr ⟨h.nextBlock, by rw [hw2], by rw [hr2b]⟩)
  refine ⟨?_, ?_, ?_, ?_, ?_, hr1p, hr2p, hexp, ?_, ?_⟩
  · simp [Scenario.makeSp1, SharedPtr.UseCount, hpb, BaseBlock.GetStrongCounter_eq, mb]
  · simp [Scenario.makeSp1, SharedPtr.UseCount, hpb, BaseBlock.GetStrongCounter_eq, hcb]
  · simp [hc2, SharedPtr.UseCount, hpb, BaseBlock.GetStrongCounter_eq, hcb]
  · simp [hw2, WeakPtr.UseCount, BaseBlock.GetStrongCounter_eq, hwb]
  · exact (Expired_false_iff _ _).mpr ⟨h.nextBlock, by rw [hw2], by rw [hwb]; simp⟩
  · unfold WeakPtr.Lock
    simp [hexp, SharedPtr.ctor_default]
  · rw [hr2, DecStrong_objs, hr1b, hr1o, mo]
    simp [decr]

theorem DecWeak_nextBlock (h : Heap) (b : Addr) :
    (BaseBlock.DecWeakCounter h b).nextBlock = h.nextBlock := by
  rw [BaseBlock.DecWeakCounter_eq]
  unfold BlockPointer.DecWeakCounter Heap.deleteThis
  simp only [Heap.setBlock_blocks_same]
  split <;> rfl

theorem deleteObject_nextBlock (h : Heap) (p : Option Addr) :
    (deleteObject h p).nextBlock = h.nextBlock := by
  unfold deleteObject
  cases p with
  | none => rfl
  | some o =>
    simp only [Obj.dtor, WeakPtr.dtor]
    split
    · rw [DecWeak_nextBlock]; rfl
    · rfl

/-- With strong count `1`, `DecStrongCounter` is: the two counter updates, the destruction of
the object, and the rest. -/
theorem DecStrong_last_unfold (h : Heap) (b : Addr)
    (hs : (h.blocks b).strong_counter_ = 1) :
    BaseBlock.DecStrongCounter h b =
      DecStrongCounter.afterDestroy
        (deleteObject (DecStrongCounter.beforeDestroy h b) (h.blocks b).object_) b := by
  rw [BaseBlock.DecStrongCounter_eq]
  unfold BlockPointer.DecStrongCounter DecStrongCounter.afterDestroy
    DecStrongCounter.beforeDestroy
  simp [hs]

theorem DecStrong_nextBlock (h : Heap) (b : Addr) :
    (BaseBlock.DecStrongCounter h b).nextBlock = h.nextBlock := by
  rw [BaseBlock.DecStrongCounter_eq]
  unfold BlockPointer.DecStrongCounter Heap.deleteThis
  simp only [Heap.setBlock_blocks_same]
  split
  · split
    · show (deleteObject _ _).nextBlock = _
      rw [deleteObject_nextBlock]; rfl
    · show (deleteObject _ _).nextBlock = _
      rw [deleteObject_nextBlock]; rfl
  · rfl

theorem DecStrong_strong (h : Heap) (b : Addr) :
    ((BaseBlock.DecStrongCounter h b).blocks b).strong_counter_
      = decr (h.blocks b).strong_counter_ := by
  by_cases hz : decr (h.blocks b).strong_counter_ = 0
  · rw [BaseBlock.DecStrongCounter_eq]
    unfold BlockPointer.DecStrongCounter Heap.deleteThis
    simp only [Heap.setBlock_blocks_same, hz, if_true]
    have key : ∀ g : Heap, (g.blocks b).strong_counter_ = 0 → ∀ p,
        ((deleteObject g p).blocks b).strong_counter_ = 0 := by
      intro g hg p
      rw [deleteObject_blocks_self]
      split
      · rw [DecWeak_blocks_self]
        split <;> exact hg
      · exact hg
    split <;> simp only [Heap.setBlock_blocks_same] <;> exact key _ (by simp) _
  · rw [DecStrong_not_last h b hz]
    simp

theorem Reset_of_block (h : Heap) (p : SharedPtr) (b : Addr) (hb : p.block_ = some b) :
    SharedPtr.Reset h p = (BaseBlock.DecStrongCounter h b, ⟨none, none⟩) := by
  unfold SharedPtr.Reset
  simp [hb]

theorem Reset_of_empty (h : Heap) (p : SharedPtr) (hb : p.block_ = none) :
    SharedPtr.Reset h p = (h, p) := by
  unfold SharedPtr.Reset
  simp [hb]

theorem Reset_nextBlock (h : Heap) (p : SharedPtr) :
    (SharedPtr.Reset h p).1.nextBlock = h.nextBlock := by
  cases hb : p.block_ with
  | none => rw [Reset_of_empty h p hb]
  | some b => rw [Reset_of_block h p b hb]; exact DecStrong_nextBlock h b

/-- C16.  `Reset()` on a pointer with a block whose strong count is positive runs
`DecStrongCounter` on that block, which lowers the strong count by exactly one, and leaves
the pointer empty (no block, `Get()` null, use count `0`); on a pointer without a block it
changes neither the heap nor the pointer.  `Reset(ptr)` performs `Reset()` and then puts a
fresh `BlockPointer` for `ptr` at the next free address: afterwards `Get() == ptr`, the use
count is `1`, and every other block and every object are as `Reset()` left them; when the
old block had further owners it only lost one strong count, so they keep their group. -/
theorem C16_reset_releases_then_owns (h : Heap) (p : SharedPtr) (ptr : Option Addr) :
    (∀ b, p.block_ = some b → 0 < (h.blocks b).strong_counter_ →
      (SharedPtr.Reset h p).1 = BaseBlock.DecStrongCounter h b ∧
      ((SharedPtr.Reset h p).1.blocks b).strong_counter_ + 1 = (h.blocks b).strong_counter_ ∧
      (SharedPtr.Reset h p).2 = ⟨none, none⟩ ∧
      (SharedPtr.Reset h p).2.Get = none ∧
      SharedPtr.UseCount (SharedPtr.Reset h p).1 (SharedPtr.Reset h p).2 = 0) ∧
    (p.block_ = none → SharedPtr.Reset h p = (h, p)) ∧
    (SharedPtr.Reset_ptr h p ptr).2 = ⟨some h.nextBlock, ptr⟩ ∧
    (SharedPtr.Reset_ptr h p ptr).2.Get = ptr ∧
    SharedPtr.UseCount (SharedPtr.Reset_ptr h p ptr).1 (SharedPtr.Reset_ptr h p ptr).2 = 1 ∧
    (SharedPtr.Reset_ptr h p ptr).1.blocks h.nextBlock = ⟨BlockKind.pointer, 1, 0, ptr, 0⟩ ∧
    (∀ x, x ≠ h.nextBlock →
      (SharedPtr.Reset_ptr h p ptr).1.blocks x = (SharedPtr.Reset h p).1.blocks x) ∧
    (SharedPtr.Reset_ptr h p ptr).1.objs = (SharedPtr.Reset h p).1.objs ∧
    (∀ b, p.block_ = some b → b ≠ h.nextBlock → 2 ≤ (h.blocks b).strong_counter_ →
      (SharedPtr.Reset_ptr h p ptr).1.blocks b =
        { h.blocks b with strong_counter_ := (h.blocks b).strong_counter_ - 1 } ∧
      (SharedPtr.Reset_ptr h p ptr).1.objs = h.objs) := by
  have hnb := Reset_nextBlock h p
  have hres : (SharedPtr.Reset_ptr h p ptr).2 = ⟨some h.nextBlock, ptr⟩ := by
    simp [SharedPtr.Reset_ptr, BlockPointer.new, hnb]
  have hblk : (SharedPtr.Reset_ptr h p ptr).1.blocks h.nextBlock
      = ⟨BlockKind.pointer, 1, 0, ptr, 0⟩ := by
    simp [SharedPtr.Reset_ptr, BlockPointer.new, Heap.setBlock, hnb]
  have hother : ∀ x, x ≠ h.nextBlock →
      (SharedPtr.Reset_ptr h p ptr).1.blocks x = (SharedPtr.Reset h p).1.blocks x := by
    intro x hx
    simp [SharedPtr.Reset_ptr, BlockPointer.new, Heap.setBlock, hnb, hx]
  have hobjs : (SharedPtr.Reset_ptr h p ptr).1.objs = (SharedPtr.Reset h p).1.objs := by
    simp [SharedPtr.Reset_ptr, BlockPointer.new, Heap.setBlock]
  refine ⟨?_, Reset_of_empty h p, hres, ?_, ?_, hblk, hother, hobjs, ?_⟩
  · intro b hb hs
    rw [Reset_of_block h p b hb]
    refine ⟨rfl, ?_, rfl, rfl, rfl⟩
    simp only
    rw [DecStrong_strong]
    unfold decr
    have : (h.blocks b).strong_counter_ ≠ 0 := by omega
    rw [if_neg this]
    omega
  · rw [hres]; rfl
  · simp [hres, SharedPtr.UseCount, BaseBlock.GetStrongCounter_eq, hblk]
  · intro b hb hne hs
    obtain ⟨hd, hd0⟩ := decr_of_two_le _ hs
    rw [hother b hne, hobjs, Reset_of_block h p b hb]
    simp only
    rw [DecStrong_not_last h b hd0, hd]
    exact ⟨by simp, rfl⟩

/-- C20 fails where the counter wraps: on a block with strong count `1` and weak count
`2^64 - 1` the object is destroyed, once, while the weak count is `0`, not one above its
resting value; the count is `2^64 - 1` again afterwards. -/
theorem C20_extra_weak_count_wraps_at_size_max :
    (Example.weakAtMax.blocks 0).strong_counter_ = 1 ∧
    (Example.weakAtMax.blocks 0).weak_counter_ = 2 ^ 64 - 1 ∧
    ((DecStrongCounter.beforeDestroy Example.weakAtMax 0).blocks 0).weak_counter_ = 0 ∧
    BaseBlock.DecStrongCounter Example.weakAtMax 0 =
      DecStrongCounter.afterDestroy
        (deleteObject (DecStrongCounter.beforeDestroy Example.weakAtMax 0) (some 0)) 0 ∧
    ((BaseBlock.DecStrongCounter Example.weakAtMax 0).objs 0).destroyed = 1 ∧
    ((BaseBlock.DecStrongCounter Example.weakAtMax 0).blocks 0).weak_counter_
      = 2 ^ 64 - 1 := by
  refine ⟨by decide, by decide, by decide, ?_, by decide, by decide⟩
  rw [DecStrong_last_unfold Example.weakAtMax 0 (by decide)]
  rfl

/-- C20, amended.  A block `b` with strong count `1` whose only weak count is the
self-reference `weak_this_` of the object `o` it manages.  `DecStrongCounter` is the two
counter updates, the destruction of `o`, then the rest; the destructor of `o` runs on a heap
where the weak count of `b` is one above its resting value; the `DecWeakCounter` nested in
that destructor brings it back to the resting value `1` and does not deallocate `b`; the rest
of `DecStrongCounter` takes the weak count to `0` and deallocates `b`, once, the object having
been destroyed once.  Had the nested `DecWeakCounter` run without the extra weak count, it
would have deallocated `b` itself.  For any block with strong count `1` the object is
destroyed under the `size_t` pre-increment of the weak count, which is one above the resting
value unless that was `2^64 - 1`, when it is `0`; the weak count ends at its resting value
minus the self-reference that the destructor released. -/
theorem C20_object_destroyed_under_extra_weak_count (h : Heap) (b o : Addr)
    (hstrong : (h.blocks b).strong_counter_ = 1)
    (hweak : (h.blocks b).weak_counter_ = 1)
    (hobj : (h.blocks b).object_ = some o)
    (hlive : (h.blocks b).deleted = 0)
    (hself : (h.objs o).weak_this_.block_ = some b) :
    BaseBlock.DecStrongCounter h b =
      DecStrongCounter.afterDestroy
        (deleteObject (DecStrongCounter.beforeDestroy h b) (some o)) b ∧
    ((DecStrongCounter.beforeDestroy h b).blocks b).strong_counter_ = 0 ∧
    ((DecStrongCounter.beforeDestroy h b).blocks b).weak_counter_
      = (h.blocks b).weak_counter_ + 1 ∧
    (deleteObject (DecStrongCounter.beforeDestroy h b) (some o)).blocks b
      = (BaseBlock.DecWeakCounter (DecStrongCounter.beforeDestroy h b) b).blocks b ∧
    ((deleteObject (DecStrongCounter.beforeDestroy h b) (some o)).blocks b).weak_counter_
      = 1 ∧
    ((deleteObject (DecStrongCounter.beforeDestroy h b) (some o)).blocks b).deleted = 0 ∧
    ((BaseBlock.DecStrongCounter h b).blocks b).weak_counter_ = 0 ∧
    ((BaseBlock.DecStrongCounter h b).blocks b).deleted = 1 ∧
    ((BaseBlock.DecStrongCounter h b).objs o).destroyed = (h.objs o).destroyed + 1 ∧
    ((BaseBlock.DecWeakCounter
      (h.setBlock b { h.blocks b with strong_counter_ := 0 }) b).blocks b).deleted = 1 ∧
    (∀ (g : Heap) (x : Addr), (g.blocks x).strong_counter_ = 1 →
      ((DecStrongCounter.beforeDestroy g x).blocks x).weak_counter_
        = incr (g.blocks x).weak_counter_ ∧
      ((g.blocks x).weak_counter_ ≠ SIZE_MAX →
        ((DecStrongCounter.beforeDestroy g x).blocks x).weak_counter_
          = (g.blocks x).weak_counter_ + 1) ∧
      ((g.blocks x).weak_counter_ = SIZE_MAX →
        ((DecStrongCounter.beforeDestroy g x).blocks x).weak_counter_ = 0) ∧
      (g.selfRefs x ≤ (g.blocks x).weak_counter_ →
        ((BaseBlock.DecStrongCounter g x).blocks x).weak_counter_
          = (g.blocks x).weak_counter_ - g.selfRefs x)) := by
  have hsr : h.selfRefs b = 1 := by
    simp [Heap.selfRefs, Heap.selfRefsOf, hobj, hself]
  have hlast := DecStrong_last_block h b hstrong (by rw [hsr, hweak])
  rw [hsr, hweak] at hlast
  have hbefore : (DecStrongCounter.beforeDestroy h b).blocks b =
      { h.blocks b with strong_counter_ := 0, weak_counter_ := 2 } := by
    simp [DecStrongCounter.beforeDestroy, hstrong, hweak]
  have hsrb : (DecStrongCounter.beforeDestroy h b).selfRefsOf (some o) b = 1 := by
    simp [Heap.selfRefsOf, DecStrongCounter.beforeDestroy, hself]
  have hnested : (deleteObject (DecStrongCounter.beforeDestroy h b) (some o)).blocks b
      = (BaseBlock.DecWeakCounter (DecStrongCounter.beforeDestroy h b) b).blocks b := by
    rw [deleteObject_blocks_self, if_pos hsrb]
  have hnested2 : (BaseBlock.DecWeakCounter (DecStrongCounter.beforeDestroy h b) b).blocks b
      = { h.blocks b with strong_counter_ := 0, weak_counter_ := 1 } := by
    rw [DecWeak_blocks_self, hbefore]
    simp
  refine ⟨?_, ?_, ?_, hnested, ?_, ?_, ?_, ?_, ?_, ?_, ?_⟩
  · rw [DecStrong_last_unfold h b hstrong, hobj]
  · rw [hbefore]
  · rw [hbefore, hweak]
  · rw [hnested, hnested2]
  · rw [hnested, hnested2]; exact hlive
  · rw [hlast]
  · rw [hlast]; simp [hlive]
  · rw [DecStrong_objs]
    simp [hstrong, hobj, decr]
  · rw [DecWeak_blocks_self]
    simp [hweak, hlive, decr]
  · intro g x hs
    have hbw : ((DecStrongCounter.beforeDestroy g x).blocks x).weak_counter_
        = incr (g.blocks x).weak_counter_ := by
      simp [DecStrongCounter.beforeDestroy]
    refine ⟨hbw, ?_, ?_, ?_⟩
    · intro hne
      rw [hbw, incr_of_ne_max _ hne]
    · intro hmax
      rw [hbw, hmax, incr_max]
    · intro hw
      rw [DecStrong_last_block g x hs hw]

/-- C20 at `SharedPtr<T> a(new T);` for a type `T` deriving from `EnableSharedFromThis<T>`:
the hypotheses hold; when `a` releases the block, the nested `DecWeakCounter` leaves it
allocated and `DecStrongCounter` deallocates it once. -/
theorem C20_witness :
    (Example.soleOwnerEsft.1.blocks 0).weak_counter_ = 1 ∧
    (Example.soleOwnerEsft.1.objs 0).weak_this_.block_ = some 0 ∧
    ((deleteObject (DecStrongCounter.beforeDestroy Example.soleOwnerEsft.1 0)
      (some 0)).blocks 0).deleted = 0 ∧
    ((BaseBlock.DecStrongCounter Example.soleOwnerEsft.1 0).blocks 0).deleted = 1 := by
  have key := C20_object_destroyed_under_extra_weak_count Example.soleOwnerEsft.1 0 0
    (by decide) (by decide) (by decide) (by decide) (by decide)
  exact ⟨by decide, by decide, key.2.2.2.2.2.1, key.2.2.2.2.2.2.2.1⟩

/-! ## The two block variants run one counter machine -/

theorem BlockObject_call_eq (op : BlockOp) (h : Heap) (b : Addr) :
    BlockObject.call op h b = BlockPointer.call op h b := by
  cases op <;> rfl

theorem BlockObject_observe_eq (h : Heap) (b : Addr) :
    BlockObject.observe h b = BlockPointer.observe h b := rfl

theorem decr_eq_zero_iff (s : Nat) : decr s = 0 ↔ s = 1 := by
  unfold decr SIZE_MAX
  split <;> omega

/-- The block at `b` after `DecStrongCounter` took its strong count from `1` to `0`, with
no assumption on the weak count. -/
theorem DecStrong_last_block_general (h : Heap) (b : Addr)
    (hs : (h.blocks b).strong_counter_ = 1) :
    (BaseBlock.DecStrongCounter h b).blocks b =
      (if h.selfRefs b = 1 then
        { h.blocks b with
          strong_counter_ := 0,
          weak_counter_ := decr (h.blocks b).weak_counter_,
          deleted := (if (h.blocks b).weak_counter_ = 0 then (h.blocks b).deleted + 1
              else (h.blocks b).deleted) +
            (if decr (h.blocks b).weak_counter_ = 0 then 1 else 0) }
      else
        { h.blocks b with
          strong_counter_ := 0,
          weak_counter_ := (h.blocks b).weak_counter_,
          deleted := (h.blocks b).deleted +
            (if (h.blocks b).weak_counter_ = 0 then 1 else 0) }) := by
  rw [DecStrong_last_unfold h b hs]
  have hbefore : (DecStrongCounter.beforeDestroy h b).blocks b =
      { h.blocks b with strong_counter_ := 0,
                        weak_counter_ := incr (h.blocks b).weak_counter_ } := by
    simp [DecStrongCounter.beforeDestroy, hs]
  have hsr : (DecStrongCounter.beforeDestroy h b).selfRefsOf (h.blocks b).object_ b
      = h.selfRefs b := rfl
  have key := deleteObject_blocks_self (DecStrongCounter.beforeDestroy h b)
    (h.blocks b).object_ b
  rw [hsr] at key
  unfold DecStrongCounter.afterDestroy Heap.deleteThis
  by_cases h1 : h.selfRefs b = 1
  · rw [if_pos h1, DecWeak_blocks_self, hbefore] at key
    simp only [decr_incr, and_true] at key
    rw [if_pos h1]
    simp only [Heap.setBlock_blocks_same, key]
    split <;> split <;> simp_all
  · rw [if_neg h1, hbefore] at key
    rw [if_neg h1]
    simp only [Heap.setBlock_blocks_same, key, decr_incr]
    split <;> simp_all

theorem selfRefs_congr (g h : Heap) (b o : Addr)
    (hg : (g.blocks b).object_ = some o) (hh : (h.blocks b).object_ = some o)
    (hw : (g.objs o).weak_this_ = (h.objs o).weak_this_) :
    g.selfRefs b = h.selfRefs b := by
  simp [Heap.selfRefs, Heap.selfRefsOf, hg, hh, hw]

/-- One call on a block that manages an object acts on the observable state as the counter
discipline does, and keeps the managed object and its self-reference. -/
theorem call_observe (op : BlockOp) (h : Heap) (b o : Addr)
    (hobj : (h.blocks b).object_ = some o) :
    BlockPointer.observe (BlockPointer.call op h b) b
      = CounterState.step (decide (h.selfRefs b = 1)) op (BlockPointer.observe h b) ∧
    ((BlockPointer.call op h b).blocks b).object_ = some o ∧
    (BlockPointer.call op h b).selfRefs b = h.selfRefs b := by
  cases op with
  | IncStrongCounter =>
    simp only [BlockPointer.call]
    have hb := IncStrong_blocks_self h b
    have ho := IncStrong_objs h b
    rw [BaseBlock.IncStrongCounter_eq] at hb ho
    have hobj2 : ((BlockPointer.IncStrongCounter h b).blocks b).object_ = some o := by
      rw [hb]; exact hobj
    refine ⟨?_, hobj2, selfRefs_congr _ _ b o hobj2 hobj (by rw [ho])⟩
    simp [BlockPointer.call, BlockPointer.observe, CounterState.step,
      BlockPointer.GetStrongCounter, BlockPointer.GetWeakCounter, hb, ho, Heap.destroyedOf]
  | IncWeakCounter =>
    simp only [BlockPointer.call]
    have hb := IncWeak_blocks_self h b
    have ho := IncWeak_objs h b
    rw [BaseBlock.IncWeakCounter_eq] at hb ho
    have hobj2 : ((BlockPointer.IncWeakCounter h b).blocks b).object_ = some o := by
      rw [hb]; exact hobj
    refine ⟨?_, hobj2, selfRefs_congr _ _ b o hobj2 hobj (by rw [ho])⟩
    simp [BlockPointer.call, BlockPointer.observe, CounterState.step,
      BlockPointer.GetStrongCounter, BlockPointer.GetWeakCounter, hb, ho, Heap.destroyedOf]
  | DecWeakCounter =>
    simp only [BlockPointer.call]
    have hb := DecWeak_blocks_self h b
    have ho := DecWeak_objs h b
    rw [BaseBlock.DecWeakCounter_eq] at hb ho
    have hobj2 : ((BlockPointer.DecWeakCounter h b).blocks b).object_ = some o := by
      rw [hb]; exact hobj
    refine ⟨?_, hobj2, selfRefs_congr _ _ b o hobj2 hobj (by rw [ho])⟩
    simp [BlockPointer.call, BlockPointer.observe, CounterState.step, CounterState.decWeak,
      BlockPointer.GetStrongCounter, BlockPointer.GetWeakCounter, hb, ho, Heap.destroyedOf]
  | DecStrongCounter =>
    simp only [BlockPointer.call]
    have ho := DecStrong_objs h b o
    rw [BaseBlock.DecStrongCounter_eq] at ho
    by_cases hs : (h.blocks b).strong_counter_ = 1
    · have hb := DecStrong_last_block_general h b hs
      rw [BaseBlock.DecStrongCounter_eq] at hb
      have hobj2 : ((BlockPointer.DecStrongCounter h b).blocks b).object_ = some o := by
        rw [hb]; split <;> exact hobj
      refine ⟨?_, hobj2, selfRefs_congr _ _ b o hobj2 hobj (by rw [ho]; split <;> rfl)⟩
      simp only [BlockPointer.call, BlockPointer.observe, CounterState.step,
        CounterState.decWeak, BlockPointer.GetStrongCounter, BlockPointer.GetWeakCounter,
        hb, ho, hobj, hobj2, Heap.destroyedOf, hs, decr_succ, decr_incr, true_and, if_true]
      have hd : ((BlockPointer.DecStrongCounter h b).objs o).destroyed
          = (h.objs o).destroyed + 1 := by
        rw [ho]; simp [hs, hobj]
      by_cases h1 : h.selfRefs b = 1
      · simp only [h1, if_true, decide_True, and_true]
        by_cases hw : (h.blocks b).weak_counter_ = 0
        · simp only [hw, hd, decr_incr, if_true, CounterState.mk.injEq, true_and]
          split <;> rfl
        · simp only [hw, hd, decr_incr, if_false, CounterState.mk.injEq, true_and]
          split <;> rfl
      · simp only [h1, if_false, decide_False, Bool.false_eq_true, decr_succ, decr_incr]
        by_cases hw : (h.blocks b).weak_counter_ = 0
        · simp [hw, hd]
        · simp [hw, hd]
    · have hz : decr (h.blocks b).strong_counter_ ≠ 0 := fun e =>
        hs ((decr_eq_zero_iff _).mp e)
      have hb := DecStrong_not_last h b hz
      rw [BaseBlock.DecStrongCounter_eq] at hb
      have hobj2 : ((BlockPointer.DecStrongCounter h b).blocks b).object_ = some o := by
        rw [hb]; simpa using hobj
      refine ⟨?_, hobj2, selfRefs_congr _ _ b o hobj2 hobj (by rw [hb]; rfl)⟩
      simp [BlockPointer.call, BlockPointer.observe, CounterState.step,
        BlockPointer.GetStrongCounter, BlockPointer.GetWeakCounter, hb, hz, Heap.destroyedOf]

/-- A sequence of calls on a block that manages an object acts on the observable state as
the counter discipline does. -/
theorem run_observe (ops : List BlockOp) (b o : Addr) :
    ∀ h : Heap, (h.blocks b).object_ = some o →
      BlockPointer.observe (BlockPointer.run ops h b) b
        = CounterState.run (decide (h.selfRefs b = 1)) ops (BlockPointer.observe h b) ∧
      ((BlockPointer.run ops h b).blocks b).object_ = some o := by
  induction ops with
  | nil => intro h hobj; exact ⟨rfl, hobj⟩
  | cons op t ih =>
    intro h hobj
    obtain ⟨hstep, hobj2, hsr⟩ := call_observe op h b o hobj
    obtain ⟨ih1, ih2⟩ := ih (BlockPointer.call op h b) hobj2
    have hfold : BlockPointer.run (op :: t) h b
        = BlockPointer.run t (BlockPointer.call op h b) b := rfl
    have hfold2 : ∀ (sr : Bool) (s : CounterState),
        CounterState.run sr (op :: t) s = CounterState.run sr t (CounterState.step sr op s) :=
      fun _ _ => rfl
    rw [hfold, hfold2, ih1, hsr, hstep]
    exact ⟨rfl, ih2⟩

theorem BlockObject_run_eq (ops : List BlockOp) (b : Addr) :
    ∀ h : Heap, BlockObject.run ops h b = BlockPointer.run ops h b := by
  induction ops with
  | nil => intro h; rfl
  | cons op t ih =>
    intro h
    have hfold : BlockObject.run (op :: t) h b
        = BlockObject.run t (BlockObject.call op h b) b := rfl
    have hfold2 : BlockPointer.run (op :: t) h b
        = BlockPointer.run t (BlockPointer.call op h b) b := rfl
    rw [hfold, hfold2, ih, BlockObject_call_eq]

/-- C21.  A `BlockPointer` at `b1` and a `BlockObject` at `b2`, each managing an object,
that start with equal strong and weak counts, equally often destroyed objects and equal
deallocation counts, and whose objects both hold or both do not hold the self-reference:
after every number `k` of steps of the same sequence of `IncStrongCounter`,
`DecStrongCounter`, `IncWeakCounter` and `DecWeakCounter` calls, `GetStrongCounter` and
`GetWeakCounter` agree, the two objects have been destroyed equally often and the two
blocks deallocated equally often; both follow the counter discipline of the spec. -/
theorem C21_block_variants_run_one_counter_machine (ops : List BlockOp) (h1 h2 : Heap)
    (b1 b2 o1 o2 : Addr)
    (hobj1 : (h1.blocks b1).object_ = some o1)
    (hobj2 : BlockObject.GetObserver h2 b2 = some o2)
    (hstrong : BlockPointer.GetStrongCounter h1 b1 = BlockObject.GetStrongCounter h2 b2)
    (hweak : BlockPointer.GetWeakCounter h1 b1 = BlockObject.GetWeakCounter h2 b2)
    (hdestroyed : (h1.objs o1).destroyed = (h2.objs o2).destroyed)
    (hdeleted : (h1.blocks b1).deleted = (h2.blocks b2).deleted)
    (hself : h1.selfRefs b1 = h2.selfRefs b2) :
    ∀ k : Nat,
      BlockPointer.GetStrongCounter (BlockPointer.run (ops.take k) h1 b1) b1
        = BlockObject.GetStrongCounter (BlockObject.run (ops.take k) h2 b2) b2 ∧
      BlockPointer.GetWeakCounter (BlockPointer.run (ops.take k) h1 b1) b1
        = BlockObject.GetWeakCounter (BlockObject.run (ops.take k) h2 b2) b2 ∧
      ((BlockPointer.run (ops.take k) h1 b1).objs o1).destroyed
        = ((BlockObject.run (ops.take k) h2 b2).objs o2).destroyed ∧
      ((BlockPointer.run (ops.take k) h1 b1).blocks b1).deleted
        = ((BlockObject.run (ops.take k) h2 b2).blocks b2).deleted ∧
      BlockPointer.observe (BlockPointer.run (ops.take k) h1 b1) b1
        = CounterState.run (decide (h1.selfRefs b1 = 1)) (ops.take k)
            (BlockPointer.observe h1 b1) ∧
      BlockObject.observe (BlockObject.run (ops.take k) h2 b2) b2
        = CounterState.run (decide (h1.selfRefs b1 = 1)) (ops.take k)
            (BlockPointer.observe h1 b1) := by
  intro k
  have hobj2' : (h2.blocks b2).object_ = some o2 := hobj2
  obtain ⟨r1, k1⟩ := run_observe (ops.take k) b1 o1 h1 hobj1
  obtain ⟨r2, k2⟩ := run_observe (ops.take k) b2 o2 h2 hobj2'
  have hstart : BlockPointer.observe h2 b2 = BlockPointer.observe h1 b1 := by
    simp only [BlockPointer.observe, hobj1, hobj2', Heap.destroyedOf, CounterState.mk.injEq]
    exact ⟨hstrong.symm, hweak.symm, hdestroyed.symm, hdeleted.symm⟩
  rw [← hself, hstart] at r2
  rw [BlockObject_run_eq]
  have heq : BlockPointer.observe (BlockPointer.run (ops.take k) h1 b1) b1
      = BlockPointer.observe (BlockPointer.run (ops.take k) h2 b2) b2 := by
    rw [r1, r2]
  have heq' := heq
  simp only [BlockPointer.observe, k1, k2, Heap.destroyedOf, CounterState.mk.injEq] at heq'
  exact ⟨heq'.1, heq'.2.1, heq'.2.2.1, heq'.2.2.2, r1, r2⟩

/-- C21 at `SharedPtr<T> a(new T);` against `MakeShared<T>()`, driven by
`IncWeakCounter, DecStrongCounter, DecWeakCounter`: the hypotheses hold, and after the three
calls both blocks read strong `0`, weak `0`, and both have been deallocated once.  Driven by
`DecWeakCounter, IncWeakCounter, DecStrongCounter`, where the weak count wraps to `2^64 - 1`
and back to `0`, the block and the counter discipline both end at strong `0`, weak `0`, the
object destroyed once and the block deallocated once. -/
theorem C21_witness :
    BlockPointer.GetStrongCounter Example.soleOwner.1 0
      = BlockObject.GetStrongCounter (MakeShared false Heap.empty).1 0 ∧
    BlockPointer.observe (BlockPointer.run
      [BlockOp.IncWeakCounter, BlockOp.DecStrongCounter, BlockOp.DecWeakCounter]
      Example.soleOwner.1 0) 0 = ⟨0, 0, 1, 1⟩ ∧
    ((BlockPointer.run
      [BlockOp.IncWeakCounter, BlockOp.DecStrongCounter, BlockOp.DecWeakCounter]
      Example.soleOwner.1 0).blocks 0).deleted
      = ((BlockObject.run
      [BlockOp.IncWeakCounter, BlockOp.DecStrongCounter, BlockOp.DecWeakCounter]
      (MakeShared false Heap.empty).1 0).blocks 0).deleted ∧
    BlockPointer.observe (BlockPointer.run [BlockOp.DecWeakCounter] Example.soleOwner.1 0) 0
      = ⟨1, 2 ^ 64 - 1, 0, 0⟩ ∧
    BlockPointer.observe (BlockPointer.run
      [BlockOp.DecWeakCounter, BlockOp.IncWeakCounter, BlockOp.DecStrongCounter]
      Example.soleOwner.1 0) 0 = ⟨0, 0, 1, 1⟩ ∧
    CounterState.run false
      [BlockOp.DecWeakCounter, BlockOp.IncWeakCounter, BlockOp.DecStrongCounter]
      ⟨1, 0, 0, 0⟩ = ⟨0, 0, 1, 1⟩ := by
  have key := C21_block_variants_run_one_counter_machine
    [BlockOp.IncWeakCounter, BlockOp.DecStrongCounter, BlockOp.DecWeakCounter]
    Example.soleOwner.1 (MakeShared false Heap.empty).1 0 0 0 0
    (by decide) (by decide) (by decide) (by decide) (by decide) (by decide) (by decide) 3
  exact ⟨by decide, by decide, key.2.2.2.1, by decide, by decide, by decide⟩

/-! ## `IntrusivePtr` and `UniquePtr` -/

/-- C22, evaluated at `auto p = MakeIntrusive<T>(); p.Reset(p.Get());` followed by `~p`:
`p` is the only instance and `RefCount()` is `1`; `Reset(ptr)` with the held pointer calls
`DecRef` first, which takes the count to `0` and calls the deleter although `p` goes on
holding the object with `UseCount()` `1`; the destructor of `p` then takes the count to `0`
and calls the deleter a second time.  The copy assignment `p = p`, which tests for the held
pointer, changes nothing. -/
theorem C22_reset_to_held_pointer_calls_deleter_early :
    IntrusivePtr.UseCount Example.intrusiveSole.1 Example.intrusiveSole.2 = 1 ∧
    RefCounted.RefCount Example.intrusiveSole.1 0 = 1 ∧
    (Example.intrusiveSole.1 0).destroyed = 0 ∧
    Example.intrusiveResetToHeld.2.Get = some 0 ∧
    IntrusivePtr.UseCount Example.intrusiveResetToHeld.1 Example.intrusiveResetToHeld.2
      = 1 ∧
    (Example.intrusiveResetToHeld.1 0).destroyed = 1 ∧
    ((IntrusivePtr.dtor Example.intrusiveResetToHeld.1 Example.intrusiveResetToHeld.2)
      0).destroyed = 2 ∧
    ((IntrusivePtr.assign_copy Example.intrusiveSole.1 Example.intrusiveSole.2
      Example.intrusiveSole.2).1 0).destroyed = 0 ∧
    (IntrusivePtr.assign_copy Example.intrusiveSole.1 Example.intrusiveSole.2
      Example.intrusiveSole.2).2 = Example.intrusiveSole.2 := by
  decide

/-- C23 fails for a move assignment whose source holds the pointer of the target: after
`a = std::move(a);` on a `UniquePtr` holding `5`, the source still holds `5` and no deleter
has been called.  And a pointer can reach a deleter twice: `a.Reset(a.Get());` calls the
deleter on `5` and keeps `5`, so that the destructor of `a` calls it on `5` again. -/
theorem C23_self_move_assignment_keeps_source :
    Example.uniqueHolding.Get = some 5 ∧
    (UniquePtr.assign_move [] Example.uniqueHolding Example.uniqueHolding).2.2.Get
      = some 5 ∧
    (UniquePtr.assign_move [] Example.uniqueHolding Example.uniqueHolding).1 = [] ∧
    (UniquePtr.Reset [] Example.uniqueHolding (some 5)).2.Get = some 5 ∧
    (UniquePtr.dtor (UniquePtr.Reset [] Example.uniqueHolding (some 5)).1
      (UniquePtr.Reset [] Example.uniqueHolding (some 5)).2).1 = [(0, 5), (0, 5)] := by
  refine ⟨rfl, rfl, rfl, rfl, rfl⟩

/-- C23, amended.  `Release()` returns the held pointer and leaves the `UniquePtr` empty; it
has no access to a deleter.  `Reset(p)` leaves `Get() == p` and calls the deleter once on
the pointer held before when that was non-null, and not at all when it was null.  Move
construction leaves the source empty and the target holding the source's pointer.  Move
assignment between a target and a source that hold different pointers does the same and
calls the target's deleter once on the target's former pointer if that was non-null; when
they hold the same pointer it changes neither and calls no deleter.  Destroying target and
source after a move calls a deleter at most once per pointer. -/
theorem C23_unique_ownership_except_same_pointer_move {D : Type} (log : DeleterLog D)
    (this other : UniquePtr D) (p : Option Addr) :
    (UniquePtr.Release this).1 = this.Get ∧
    (UniquePtr.Release this).2.Get = none ∧
    (UniquePtr.Release this).2.toBool = false ∧
    (UniquePtr.Reset log this p).2.Get = p ∧
    (∀ q, this.Get = some q → (UniquePtr.Reset log this p).1 = log ++ [(this.second, q)]) ∧
    (this.Get = none → (UniquePtr.Reset log this p).1 = log) ∧
    (UniquePtr.ctor_move other).1.Get = other.Get ∧
    (UniquePtr.ctor_move other).2.Get = none ∧
    (this.Get ≠ other.Get →
      (UniquePtr.assign_move log this other).2.1.Get = other.Get ∧
      (UniquePtr.assign_move log this other).2.2.Get = none ∧
      (UniquePtr.assign_move log this other).1 = log ++ this.pending) ∧
    (this.Get = other.Get → UniquePtr.assign_move log this other = (log, this, other)) ∧
    (UniquePtr.dtor (UniquePtr.dtor log (UniquePtr.ctor_move other).1).1
      (UniquePtr.ctor_move other).2).1 = log ++ other.pending ∧
    (this.Get ≠ other.Get →
      (UniquePtr.dtor
        (UniquePtr.dtor (UniquePtr.assign_move log this other).1
          (UniquePtr.assign_move log this other).2.1).1
        (UniquePtr.assign_move log this other).2.2).1
        = log ++ this.pending ++ other.pending ∧
      ((this.pending ++ other.pending).map Prod.snd).Nodup) := by
  have hdtor : ∀ (l : DeleterLog D) (u : UniquePtr D), (UniquePtr.dtor l u).1 = l ++ u.pending := by
    intro l u
    unfold UniquePtr.dtor UniquePtr.pending
    cases u.first <;> simp
  have hassign : this.Get ≠ other.Get →
      UniquePtr.assign_move log this other
        = (log ++ this.pending, ⟨other.first, other.second⟩, ⟨none, other.second⟩) := by
    intro hne
    have hne' : ¬ this.first = other.first := hne
    unfold UniquePtr.assign_move UniquePtr.pending
    simp only [hne', if_false]
    cases this.first <;> simp
  refine ⟨rfl, rfl, rfl, ?_, ?_, ?_, rfl, rfl, ?_, ?_, ?_, ?_⟩
  · unfold UniquePtr.Reset
    cases this.first <;> rfl
  · intro q hq
    have hq' : this.first = some q := hq
    unfold UniquePtr.Reset
    simp [hq']
  · intro hq
    have hq' : this.first = none := hq
    unfold UniquePtr.Reset
    simp [hq']
  · intro hne
    rw [hassign hne]
    exact ⟨rfl, rfl, rfl⟩
  · intro he
    have he' : this.first = other.first := he
    unfold UniquePtr.assign_move
    simp [he']
  · rw [hdtor, hdtor]
    simp [UniquePtr.ctor_move, UniquePtr.pending]
  · intro hne
    rw [hassign hne]
    refine ⟨?_, ?_⟩
    · rw [hdtor, hdtor]
      simp [UniquePtr.pending]
    · have hne' : ¬ this.first = other.first := hne
      unfold UniquePtr.pending
      cases ht : this.first <;> cases ho : other.first <;> simp
      rename_i x y
      intro hxy
      apply hne'
      rw [ht, ho, hxy]

end SmartPtrs
